import Mathlib

/-!
Verification development for the Empire OS journaling client.

The JavaScript source is shallowly embedded: strings are lists of
characters (`Str`), JavaScript numbers are modelled as integers (all
numeric values handled by the program in the verified claims are
integers), dynamic objects are either fixed structures with `Option`
fields or association lists, and the asynchronous sync coordinator is
modelled as an explicit state machine.
-/

/-- Strings are modelled as lists of characters, so that the line- and
character-level processing of the source can be reasoned about directly. -/
abbrev Str := List Char

/-- Convenience conversion from Lean string literals. -/
def lit (s : String) : Str := s.data

/-- The ECMAScript whitespace class: the characters matched by `\s`,
trimmed by `String.prototype.trim`, and skipped around a string fed to
`Number` (WhiteSpace and LineTerminator of the ECMAScript grammar). -/
def isWsChar (c : Char) : Bool :=
  c = ' ' || c = '\t' || c = '\n' || c = '\r' || c = '\x0b' || c = '\x0c' ||
  c = '\u00A0' || c = '\u1680' || ('\u2000' ≤ c && c ≤ '\u200A') ||
  c = '\u2028' || c = '\u2029' || c = '\u202F' || c = '\u205F' ||
  c = '\u3000' || c = '\uFEFF'

/-- Drop leading whitespace. -/
def dropLead (s : Str) : Str := s.dropWhile isWsChar

/-- Drop trailing whitespace. -/
def dropTrail (s : Str) : Str := (s.reverse.dropWhile isWsChar).reverse

/-- JavaScript `String.prototype.trim`: drop ECMAScript whitespace from
both ends. -/
def trimStr (s : Str) : Str := dropLead (dropTrail s)

/-- Split a string at every `'\n'` character.  `splitLines` composes
this with `stripCR` to model the source's `split(/\r?\n/)`. -/
def splitNl : Str → List Str
  | [] => [[]]
  | c :: cs =>
    if c = '\n' then [] :: splitNl cs
    else
      match splitNl cs with
      | [] => [[c]]
      | h :: t => (c :: h) :: t

/-- Replace every `"\r\n"` pair by `"\n"`: the `/\r?\n/` separator
consumes the optional carriage return, while a `'\r'` not followed by
`'\n'` is ordinary text and stays. -/
def stripCR : Str → Str
  | [] => []
  | [c] => [c]
  | c :: c2 :: cs =>
    if c = '\r' ∧ c2 = '\n' then '\n' :: stripCR cs
    else c :: stripCR (c2 :: cs)

/-- Split a string at every `\r?\n`, as JavaScript `split(/\r?\n/)`
does: the carriage return of a `"\r\n"` pair is consumed by the
separator, a lone `'\r'` stays in its line. -/
def splitLines (s : Str) : List Str := splitNl (stripCR s)

/-- Join a list of lines with newline characters, as JavaScript
`Array.prototype.join('\n')` does. -/
def joinLines : List Str → Str
  | [] => []
  | [l] => l
  | l :: ls => l ++ '\n' :: joinLines ls

/-- Value of an ASCII digit character, `none` for anything else. -/
def digitVal? (c : Char) : Option Nat :=
  if c = '0' then some 0 else if c = '1' then some 1 else
  if c = '2' then some 2 else if c = '3' then some 3 else
  if c = '4' then some 4 else if c = '5' then some 5 else
  if c = '6' then some 6 else if c = '7' then some 7 else
  if c = '8' then some 8 else if c = '9' then some 9 else none

/-- The ASCII digit character for a value below ten. -/
def digitChar10 (d : Nat) : Char :=
  match d with
  | 0 => '0' | 1 => '1' | 2 => '2' | 3 => '3' | 4 => '4'
  | 5 => '5' | 6 => '6' | 7 => '7' | 8 => '8' | 9 => '9'
  | _ => '*'

/-- Big-endian decimal digits of a natural number; the first argument is
recursion fuel (any fuel at least the number itself is enough). -/
def natToCharsCore : Nat → Nat → Str
  | 0, _ => []
  | fuel + 1, m =>
    if m = 0 then [] else natToCharsCore fuel (m / 10) ++ [digitChar10 (m % 10)]

/-- Decimal representation of a natural number, as JavaScript prints it. -/
def natToChars (m : Nat) : Str :=
  if m = 0 then ['0'] else natToCharsCore m m

/-- Decimal representation of an integer, as JavaScript prints it. -/
def intToChars (i : Int) : Str :=
  if i < 0 then '-' :: natToChars i.natAbs else natToChars i.toNat

/-- One step of decimal accumulation used while parsing digits. -/
def digitStep (acc : Option Nat) (c : Char) : Option Nat :=
  acc.bind fun n => (digitVal? c).map fun d => n * 10 + d

/-- Parse a nonempty all-digit string as a natural number (base ten,
leading zeros allowed); `none` if the string is empty or contains a
non-digit. -/
def parseNatStr (s : Str) : Option Nat :=
  match s with
  | [] => none
  | _ => s.foldl digitStep (some 0)

/-- Is the character an ASCII decimal digit? -/
def isDigit10 (c : Char) : Bool := (digitVal? c).isSome

/-- Value of a digit character in bases up to sixteen (`0-9`, `a-f`,
`A-F`), `none` for other characters or digits at least the base. -/
def radixDigitVal? (base : Nat) (c : Char) : Option Nat :=
  let v? :=
    match digitVal? c with
    | some d => some d
    | none =>
      if c = 'a' ∨ c = 'A' then some 10 else if c = 'b' ∨ c = 'B' then some 11
      else if c = 'c' ∨ c = 'C' then some 12 else if c = 'd' ∨ c = 'D' then some 13
      else if c = 'e' ∨ c = 'E' then some 14 else if c = 'f' ∨ c = 'F' then some 15
      else none
  v?.bind fun d => if d < base then some d else none

/-- Parse a nonempty all-digit string in the given base. -/
def radixNat? (base : Nat) (s : Str) : Option Nat :=
  match s with
  | [] => none
  | _ => s.foldl (fun acc c => acc.bind fun n =>
      (radixDigitVal? base c).map fun d => n * base + d) (some 0)

/-- The exponent suffix of a decimal literal: the empty string means
exponent `0`; otherwise `e`/`E`, an optional sign, and digits. -/
def parseExpSuffix : Str → Option Int
  | [] => some 0
  | c :: r =>
    if c = 'e' ∨ c = 'E' then
      match r with
      | '+' :: d => (parseNatStr d).map fun n => (n : Int)
      | '-' :: d => (parseNatStr d).map fun n => -(n : Int)
      | d => (parseNatStr d).map fun n => (n : Int)
    else none

/-- Scale a rational by a power of ten (the exponent part of a decimal
literal); the zero exponent returns the mantissa unchanged. -/
def applyExp (q : ℚ) : Int → ℚ
  | .ofNat 0 => q
  | .ofNat (k + 1) => q * 10 ^ (k + 1)
  | .negSucc k => q / 10 ^ (k + 1)

/-- An unsigned decimal literal of the ECMAScript `StringNumericLiteral`
grammar — `digits`, `digits.`, `digits.digits`, `.digits`, each with an
optional exponent — valued exactly as a rational. -/
def parseDecQ? (t : Str) : Option ℚ :=
  let ip := t.takeWhile isDigit10
  let r1 := t.dropWhile isDigit10
  match r1 with
  | '.' :: r2 =>
    let fp := r2.takeWhile isDigit10
    let r3 := r2.dropWhile isDigit10
    match parseNatStr ip, parseNatStr fp with
    | none, none => none
    | some i, none =>
      (parseExpSuffix r3).map fun e => applyExp (i : ℚ) e
    | none, some f =>
      (parseExpSuffix r3).map fun e => applyExp ((f : ℚ) / 10 ^ fp.length) e
    | some i, some f =>
      (parseExpSuffix r3).map fun e => applyExp ((i : ℚ) + (f : ℚ) / 10 ^ fp.length) e
  | _ =>
    match parseNatStr ip with
    | none => none
    | some i => (parseExpSuffix r1).map fun e => applyExp (i : ℚ) e

/-- A JavaScript number a string can convert to: a finite value or a
signed infinity (`Number`'s NaN is `none` at use sites).  Finite values
are kept as exact rationals rather than binary doubles; the double
rounding of a decimal literal, which can move a comparison only at the
last binary place, is not modelled. -/
inductive JsNum where
  | fin : ℚ → JsNum
  | posInf : JsNum
  | negInf : JsNum
deriving DecidableEq

/-- The `-` sign of a string numeric literal. -/
def jsNumNeg : JsNum → JsNum
  | .fin q => .fin (-q)
  | .posInf => .negInf
  | .negInf => .posInf

/-- `StrUnsignedDecimalLiteral`: the literal `Infinity` or an unsigned
decimal literal. -/
def parseDecOrInf (t : Str) : Option JsNum :=
  if t = lit "Infinity" then some .posInf
  else (parseDecQ? t).map .fin

/-- An unsigned `StrNumericLiteral`: a hex, octal or binary literal
(which admits no sign, dot or exponent), else a decimal literal or
`Infinity`. -/
def nonNegNum : Str → Option JsNum
  | [] => parseDecOrInf []
  | [c] => parseDecOrInf [c]
  | c1 :: c2 :: r =>
    if c1 = '0' then
      if c2 = 'x' ∨ c2 = 'X' then (radixNat? 16 r).map fun n => .fin n
      else if c2 = 'o' ∨ c2 = 'O' then (radixNat? 8 r).map fun n => .fin n
      else if c2 = 'b' ∨ c2 = 'B' then (radixNat? 2 r).map fun n => .fin n
      else parseDecOrInf (c1 :: c2 :: r)
    else parseDecOrInf (c1 :: c2 :: r)

/-- JavaScript `Number(string)`, `none` for NaN: trim ECMAScript
whitespace, the empty remainder means `0`, and an optional sign applies
to a decimal literal or `Infinity` but not to hex, octal or binary
literals. -/
def jsStrNum (s : Str) : Option JsNum :=
  match trimStr s with
  | [] => some (.fin 0)
  | c :: rest =>
    if c = '+' then parseDecOrInf rest
    else if c = '-' then (parseDecOrInf rest).map jsNumNeg
    else nonNegNum (c :: rest)

/-- Case-insensitive comparison helper: ASCII lower-casing. -/
def lowerChar (c : Char) : Char :=
  if 'A' ≤ c && c ≤ 'Z' then Char.ofNat (c.toNat + 32) else c

/-- ASCII lower-casing of a string, as `String.prototype.toLowerCase` acts
on the ASCII text of this program. -/
def lowerStr (s : Str) : Str := s.map lowerChar

/-- List-of-characters version of `String.prototype.startsWith`. -/
def startsWithStr : Str → Str → Bool
  | [], _ => true
  | _ :: _, [] => false
  | p :: ps, c :: cs => p = c && startsWithStr ps cs

/-- JavaScript `String.prototype.includes`: substring containment. -/
def jsIncludes (hay needle : Str) : Bool :=
  match hay with
  | [] => startsWithStr needle []
  | _ :: rest => startsWithStr needle hay || jsIncludes rest needle

/-- Split a line at its first colon: `some (before, after)` when the line
contains a colon, mirroring `indexOf(':')` followed by `slice`. -/
def colonSplit : Str → Option (Str × Str)
  | [] => none
  | c :: cs =>
    if c = ':' then some ([], cs)
    else (colonSplit cs).map fun p => (c :: p.1, p.2)

/-- The `^\d{4}-\d{2}-\d{2}$` regular expression used throughout the
source for date keys: four digits, a dash, two digits, a dash, two
digits, and nothing else. -/
def jsDateRe (s : Str) : Bool :=
  match s with
  | [a, b, c, d, e, f, g, h, i, j] =>
    (digitVal? a).isSome && (digitVal? b).isSome && (digitVal? c).isSome &&
    (digitVal? d).isSome && e = '-' && (digitVal? f).isSome &&
    (digitVal? g).isSome && h = '-' && (digitVal? i).isSome &&
    (digitVal? j).isSome
  | _ => false

/-- `n < q` for a JavaScript number and a rational bound. -/
def jsNumLtB (n : JsNum) (q : ℚ) : Bool :=
  match n with
  | .fin a => a < q
  | .posInf => false
  | .negInf => true

/-- `q < n` for a rational bound and a JavaScript number. -/
def jsNumGtB (n : JsNum) (q : ℚ) : Bool :=
  match n with
  | .fin a => q < a
  | .posInf => true
  | .negInf => false

/-- Smallest `k` with `den ∣ 10 ^ k`; reduced denominators of the form
`2^a · 5^b` — the only ones `Number` of a decimal string produces — are
found within the searched range. -/
def decExp (den : Nat) : Nat :=
  ((List.range (den + 1)).find? fun k => decide (den ∣ 10 ^ k)).getD den

/-- Left-pad a digit string with zeros to the given length. -/
def zeroPad (k : Nat) (s : Str) : Str := List.replicate (k - s.length) '0' ++ s

/-- Decimal printing of an exact rational, as JavaScript prints the
numbers this program serializes: integers plainly, terminating decimals
with their exact digits.  (A reduced denominator with a prime factor
other than 2 and 5 cannot come out of `Number`; for such a value this
prints a truncated expansion.  The exponent notation JavaScript switches
to beyond `1e21` and double rounding are likewise outside the serialized
range and not modelled.) -/
def ratToChars (q : ℚ) : Str :=
  if q.den = 1 then intToChars q.num
  else
    let k := decExp q.den
    let scaled := q.num.natAbs * (10 ^ k / q.den)
    (if q.num < 0 then ['-'] else []) ++
      natToChars (scaled / 10 ^ k) ++
      '.' :: zeroPad k (natToChars (scaled % 10 ^ k))

/-- A JavaScript value occurring in entry fields: a number (a finite
value, kept as an exact rational — see `JsNum`) or a string. -/
inductive JVal where
  | num : ℚ → JVal
  | str : Str → JVal
deriving DecidableEq

/-- JavaScript truthiness of a `JVal`: zero and the empty string are falsy. -/
def truthyJ : JVal → Bool
  | .num n => n ≠ 0
  | .str s => s ≠ []

/-- Truthiness of a possibly-missing value; a missing field is falsy. -/
def truthyO : Option JVal → Bool
  | none => false
  | some v => truthyJ v

/-- String conversion of a `JVal`, as template-literal interpolation does. -/
def jvalToStr : JVal → Str
  | .num n => ratToChars n
  | .str s => s

/-- String conversion of a possibly-missing value; a missing field prints
as `undefined`, as in JavaScript. -/
def jvalToStrO : Option JVal → Str
  | none => lit "undefined"
  | some v => jvalToStr v

/-- JavaScript `a || b` on a possibly-missing value. -/
def jsOrJ (v : Option JVal) (d : JVal) : JVal :=
  match v with
  | some x => if truthyJ x then x else d
  | none => d

/-- JavaScript `Number(x)` on a field value; `none` is NaN. -/
def jsToNumber : JVal → Option JsNum
  | .num n => some (.fin n)
  | .str s => jsStrNum s

/-- Last-write-wins lookup in an association list, matching assignment
into a JavaScript object followed by property access. -/
def lookupLast {α : Type} : List (Str × α) → Str → Option α
  | [], _ => none
  | (k, v) :: rest, key =>
    match lookupLast rest key with
    | some r => some r
    | none => if k = key then some v else none

/-- The journal entry record of `journal.js`.  Fields are optional because
JavaScript objects may lack them (`fromMarkdown` omits sections whose
heading is absent; callers may build partial records).  Dynamic keys
outside this schema (such as a stray `section_12` produced by a heading
inside body text) fall outside the record and are not retained. -/
structure Entry where
  schema : Option JVal
  date : Option JVal
  score : Option JVal
  discipline : Option JVal
  focus : Option JVal
  energy : Option JVal
  mood : Option JVal
  net_worth_delta : Option JVal
  section_1 : Option Str
  section_2 : Option Str
  section_3 : Option Str
  section_4a : Option Str
  section_4b : Option Str
  section_4c : Option Str
  section_4d : Option Str
  section_4e : Option Str
  section_5 : Option Str
  section_6 : Option Str
  section_7 : Option Str
  section_8 : Option Str
  section_9 : Option Str
  section_10 : Option Str
  section_11 : Option Str
deriving DecidableEq

/-- `CURRENT_SCHEMA` from `journal.js`. -/
def CURRENT_SCHEMA : ℚ := 1

/-- `createEntry` from `journal.js`: a fresh entry with default scores and
empty sections. -/
def createEntry (date : Str) : Entry where
  schema := some (JVal.num CURRENT_SCHEMA)
  date := some (JVal.str date)
  score := some (JVal.num 5)
  discipline := some (JVal.num 5)
  focus := some (JVal.num 5)
  energy := some (JVal.num 5)
  mood := some (JVal.num 5)
  net_worth_delta := some (JVal.num 0)
  section_1 := some []
  section_2 := some []
  section_3 := some []
  section_4a := some []
  section_4b := some []
  section_4c := some []
  section_4d := some []
  section_4e := some []
  section_5 := some []
  section_6 := some []
  section_7 := some []
  section_8 := some []
  section_9 := some []
  section_10 := some []
  section_11 := some []

/-- The error message pushed for an out-of-range or non-numeric score
field. -/
def scoreMsg (field : Str) : Str := field ++ lit " must be a number between 0 and 10"

/-- The error message pushed for a malformed date. -/
def dateMsg : Str := lit "Invalid date format. Expected YYYY-MM-DD"

/-- The error message pushed for a non-numeric `net_worth_delta`. -/
def nwdMsg : Str := lit "net_worth_delta must be a number"

/-- Errors contributed by one score field: nothing when the field is
absent, the field's message when `Number` of it is NaN or out of
`[0, 10]`. -/
def scoreFieldErrs (field : Str) (v : Option JVal) : List Str :=
  match v with
  | none => []
  | some jv =>
    match jsToNumber jv with
    | none => [scoreMsg field]
    | some n => if jsNumLtB n 0 || jsNumGtB n 10 then [scoreMsg field] else []

/-- A malformed-score violation as the claim states it: the field is
present and `Number` of it is NaN or out of `[0, 10]`. -/
def scoreViolation (v : Option JVal) : Prop :=
  ∃ jv, v = some jv ∧
    (jsToNumber jv = none ∨ ∃ n, jsToNumber jv = some n ∧
      (jsNumLtB n 0 = true ∨ jsNumGtB n 10 = true))

/-- Boolean form of `scoreViolation`. -/
def scoreViolationB (v : Option JVal) : Bool :=
  match v with
  | none => false
  | some jv =>
    match jsToNumber jv with
    | none => true
    | some n => jsNumLtB n 0 || jsNumGtB n 10

/-- A well-formed date as the claim states it: a string field matching
the `YYYY-MM-DD` pattern. -/
def dateWellFormed (e : Entry) : Prop :=
  ∃ s, e.date = some (JVal.str s) ∧ jsDateRe s = true

/-- A non-numeric `net_worth_delta` violation. -/
def nwdViolation (e : Entry) : Prop :=
  ∃ jv, e.net_worth_delta = some jv ∧ jsToNumber jv = none

/-- Boolean form of `nwdViolation`. -/
def nwdViolationB (v : Option JVal) : Bool :=
  match v with
  | none => false
  | some jv => (jsToNumber jv).isNone

/-- Errors contributed by the `net_worth_delta` field. -/
def nwdFieldErrs (v : Option JVal) : List Str :=
  match v with
  | none => []
  | some jv =>
    match jsToNumber jv with
    | none => [nwdMsg]
    | some _ => []

/-- `validateEntry` from `journal.js`: date format check, the five score
fields in order, then `net_worth_delta`; returns the validity flag and
the accumulated error list. -/
def validateEntry (e : Entry) : Bool × List Str :=
  let dateErrs :=
    if truthyO e.date && jsDateRe (jvalToStrO e.date) then [] else [dateMsg]
  let nwdErrs := nwdFieldErrs e.net_worth_delta
  let errs := dateErrs ++
    scoreFieldErrs (lit "score") e.score ++
    scoreFieldErrs (lit "discipline") e.discipline ++
    scoreFieldErrs (lit "focus") e.focus ++
    scoreFieldErrs (lit "energy") e.energy ++
    scoreFieldErrs (lit "mood") e.mood ++
    nwdErrs
  (errs.isEmpty, errs)

/-- `entry.section_k || ''` — a missing section prints as empty. -/
def secOr (v : Option Str) : Str := v.getD []

def hd1 : Str := lit "# 1. Identity & North Star"
def hd2 : Str := lit "# 2. Top 1-3 Priorities"
def hd3 : Str := lit "# 3. Time & Focus Plan"
def hd4 : Str := lit "# 4. Execution Checklist"
def hd5 : Str := lit "# 5. Personal Balance Sheet"
def hd6 : Str := lit "# 6. Decisions & Thinking Log"
def hd7 : Str := lit "# 7. Failure & Weakness Audit"
def hd8 : Str := lit "# 8. Fix & Upgrade Plan"
def hd9 : Str := lit "# 9. Wins & Progress"
def hd10 : Str := lit "# 10. Self-Score (0-10)"
def hd11 : Str := lit "# 11. Night Close Reflection"
def sub4a : Str := lit "## Health"
def sub4b : Str := lit "## Skill"
def sub4c : Str := lit "## Money"
def sub4d : Str := lit "## Leverage"
def sub4e : Str := lit "## Mind"

/-- The `lines` array built by `toMarkdown` in `journal.js`, in push
order: metadata block, then the eleven sections with section 4's five
subsections. -/
def tmLines (e : Entry) : List Str :=
  [lit "---",
   lit "schema: " ++ jvalToStr (jsOrJ e.schema (JVal.num CURRENT_SCHEMA)),
   lit "date: " ++ jvalToStrO e.date,
   lit "score: " ++ jvalToStrO e.score,
   lit "discipline: " ++ jvalToStrO e.discipline,
   lit "focus: " ++ jvalToStrO e.focus,
   lit "energy: " ++ jvalToStrO e.energy,
   lit "mood: " ++ jvalToStrO e.mood,
   lit "net_worth_delta: " ++ jvalToStrO e.net_worth_delta,
   lit "---",
   lit "",
   hd1, secOr e.section_1, lit "",
   hd2, secOr e.section_2, lit "",
   hd3, secOr e.section_3, lit "",
   hd4, lit "",
   sub4a, secOr e.section_4a, lit "",
   sub4b, secOr e.section_4b, lit "",
   sub4c, secOr e.section_4c, lit "",
   sub4d, secOr e.section_4d, lit "",
   sub4e, secOr e.section_4e, lit "",
   hd5, secOr e.section_5, lit "",
   hd6, secOr e.section_6, lit "",
   hd7, secOr e.section_7, lit "",
   hd8, secOr e.section_8, lit "",
   hd9, secOr e.section_9, lit "",
   hd10, secOr e.section_10, lit "",
   hd11, secOr e.section_11]

/-- `toMarkdown` from `journal.js`: the pushed lines joined with
newlines. -/
def toMarkdown (e : Entry) : Str := joinLines (tmLines e)

/-- Find the closing `---` line of a metadata block: the minimal split of
the given lines into `yaml ++ ["---"] ++ content` with nonempty
`content`, mirroring the lazy `^---\r?\n([\s\S]*?)\r?\n---\r?\n` match
(the closing dashes line must be followed by a newline). -/
def fmFind : List Str → Option (List Str × List Str)
  | [] => none
  | a :: as =>
    if a = lit "---" && !as.isEmpty then some ([], as)
    else (fmFind as).map fun p => (a :: p.1, p.2)

/-- Processing of one metadata line: split at the first colon; when the
key part is nonempty, trim key and value and coerce the value to a
number when `Number` accepts it.  A value reading as `±Infinity` is kept
in string form: the program stores the number, but every property
verified here observes the two identically (the value prints as the same
text, is truthy, and fails the score range checks either way). -/
def parseYamlLine (fm : List (Str × JVal)) (l : Str) : List (Str × JVal) :=
  match colonSplit l with
  | none => fm
  | some (k, v) =>
    if k = [] then fm
    else
      let value := trimStr v
      let jv := match jsStrNum value with
        | some (.fin q) => JVal.num q
        | some _ => JVal.str value
        | none => JVal.str value
      fm ++ [(trimStr k, jv)]

/-- `parseFrontmatter` from `journal.js`: when the document opens with a
`---` line and a later `---` line followed by more text closes the
block, the lines between them become `key: value` pairs and the rest is
the content; otherwise the frontmatter is empty and the content is the
whole document. -/
def parseFrontmatter (doc : Str) : List (Str × JVal) × Str :=
  match splitLines doc with
  | l0 :: r0 :: rr =>
    if l0 = lit "---" then
      match fmFind rr with
      | some (y, c) => ((r0 :: y).foldl parseYamlLine [], joinLines c)
      | none => ([], doc)
    else ([], doc)
  | _ => ([], doc)

/-- The `^#\s+(\d+)\.` heading test of `parseSections`: a hash, at least
one whitespace character, at least one digit, then a dot; yields the
parsed section number. -/
def parseMainHeading? (l : Str) : Option Nat :=
  match l with
  | '#' :: rest =>
    if (rest.takeWhile isWsChar).isEmpty then none
    else
      let r1 := rest.dropWhile isWsChar
      let ds := r1.takeWhile fun c => (digitVal? c).isSome
      if ds.isEmpty then none
      else
        match r1.dropWhile (fun c => (digitVal? c).isSome) with
        | '.' :: _ => parseNatStr ds
        | _ => none
  | _ => none

/-- The `^##\s+(Health|Skill|Money|Leverage|Mind)/i` subheading test of
`parseSections`, yielding the subsection letter from the `subMap`. -/
def parseSubHeading? (l : Str) : Option Char :=
  match l with
  | '#' :: '#' :: rest =>
    if (rest.takeWhile isWsChar).isEmpty then none
    else
      let low := lowerStr (rest.dropWhile isWsChar)
      if startsWithStr (lit "health") low then some 'a'
      else if startsWithStr (lit "skill") low then some 'b'
      else if startsWithStr (lit "money") low then some 'c'
      else if startsWithStr (lit "leverage") low then some 'd'
      else if startsWithStr (lit "mind") low then some 'e'
      else none
  | _ => none

/-- Loop state of `parseSections`: current section number, current
subsection letter, the line buffer, and the sections written so far. -/
structure PSState where
  curSec : Option Nat
  curSub : Option Char
  buffer : List Str
  acc : List (Str × Str)
deriving DecidableEq

/-- The key under which a flushed buffer is stored. -/
def secKey (n : Nat) (sub : Option Char) : Str :=
  lit "section_" ++ natToChars n ++ (match sub with | some c => [c] | none => [])

/-- `flushBuffer` from `parseSections`: when inside a section, record the
joined and trimmed buffer under the section's key; always clear the
buffer. -/
def flushPS (st : PSState) : PSState :=
  match st.curSec with
  | none => { st with buffer := [] }
  | some n =>
    { st with
        buffer := []
        acc := st.acc ++ [(secKey n st.curSub, trimStr (joinLines st.buffer))] }

/-- One line of the `parseSections` loop: a main heading flushes and
switches section; a subsection heading flushes and switches subsection,
but only inside section 4; anything else is buffered. -/
def stepPS (st : PSState) (l : Str) : PSState :=
  match parseMainHeading? l with
  | some n => { flushPS st with curSec := some n, curSub := none }
  | none =>
    match parseSubHeading? l with
    | some c =>
      if st.curSec = some 4 then { flushPS st with curSub := some c }
      else { st with buffer := st.buffer ++ [l] }
    | none => { st with buffer := st.buffer ++ [l] }

/-- `parseSections` from `journal.js`: run the heading state machine over
the content's lines and flush the final buffer. -/
def parseSections (content : Str) : List (Str × Str) :=
  (flushPS ((splitLines content).foldl stepPS ⟨none, none, [], []⟩)).acc

/-- `migrateEntry` from `journal.js`.  The source walks a `migrations`
table from the entry's schema version up to `CURRENT_SCHEMA`; that table
is empty in the source, so the loop never changes the entry (it only
advances a local counter) and the function's sole effect is the final
`entry.schema = CURRENT_SCHEMA` stamp. -/
def migrateEntry (e : Entry) : Entry :=
  { e with schema := some (JVal.num CURRENT_SCHEMA) }

/-- `fromMarkdown` from `journal.js`: parse frontmatter and sections,
assemble the entry with the source's defaults (`|| 1` for schema,
`|| ''` for date, `?? 5` for scores, `?? 0` for net worth delta, spread
of the parsed sections), and migrate. -/
def fromMarkdown (doc : Str) : Entry :=
  let p := parseFrontmatter doc
  let fm := p.1
  let sections := parseSections p.2
  migrateEntry
    { schema := some (jsOrJ (lookupLast fm (lit "schema")) (JVal.num 1)),
      date := some (jsOrJ (lookupLast fm (lit "date")) (JVal.str [])),
      score := some ((lookupLast fm (lit "score")).getD (JVal.num 5)),
      discipline := some ((lookupLast fm (lit "discipline")).getD (JVal.num 5)),
      focus := some ((lookupLast fm (lit "focus")).getD (JVal.num 5)),
      energy := some ((lookupLast fm (lit "energy")).getD (JVal.num 5)),
      mood := some ((lookupLast fm (lit "mood")).getD (JVal.num 5)),
      net_worth_delta := some ((lookupLast fm (lit "net_worth_delta")).getD (JVal.num 0)),
      section_1 := lookupLast sections (lit "section_1"),
      section_2 := lookupLast sections (lit "section_2"),
      section_3 := lookupLast sections (lit "section_3"),
      section_4a := lookupLast sections (lit "section_4a"),
      section_4b := lookupLast sections (lit "section_4b"),
      section_4c := lookupLast sections (lit "section_4c"),
      section_4d := lookupLast sections (lit "section_4d"),
      section_4e := lookupLast sections (lit "section_4e"),
      section_5 := lookupLast sections (lit "section_5"),
      section_6 := lookupLast sections (lit "section_6"),
      section_7 := lookupLast sections (lit "section_7"),
      section_8 := lookupLast sections (lit "section_8"),
      section_9 := lookupLast sections (lit "section_9"),
      section_10 := lookupLast sections (lit "section_10"),
      section_11 := lookupLast sections (lit "section_11") }

/-- A cache record as stored by `storage.js`: serialized markdown, the
last known remote version token (`sha`, nullable), and the sync state
(`synced`).  The wall-clock fields `updatedAt`/`syncedAt` play no role in
any verified property and are omitted. -/
structure CacheRec where
  markdown : Str
  sha : Option Str
  synced : Bool
deriving DecidableEq

/-- The durable state owned by `storage.js`: the entry cache, the pending
sync queue, and the date index. -/
structure StoreState where
  entries : List (Str × CacheRec)
  pending : List Str
  index : List Str
deriving DecidableEq

def emptyStore : StoreState := ⟨[], [], []⟩

/-- Overwrite of one key of the entry map (`entries[date] = ...`). -/
def setRec (l : List (Str × CacheRec)) (d : Str) (r : CacheRec) :
    List (Str × CacheRec) :=
  (l.filter fun p => !decide (p.1 = d)) ++ [(d, r)]

/-- Lookup in the entry map. -/
def lookupPairs (l : List (Str × CacheRec)) (d : Str) : Option CacheRec :=
  (l.find? fun p => decide (p.1 = d)).map Prod.snd

/-- `getEntry`: cache lookup by date. -/
def lookupRec (st : StoreState) (d : Str) : Option CacheRec :=
  lookupPairs st.entries d

/-- UTF-16 code-unit comparison backing JavaScript's default
`Array.prototype.sort` on the ASCII date strings of this program. -/
def strLe : Str → Str → Bool
  | [], _ => true
  | _ :: _, [] => false
  | c :: cs, d :: ds => if c = d then strLe cs ds else decide (c.toNat < d.toNat)

/-- Insertion into a descending-sorted list. -/
def insertDesc (x : Str) : List Str → List Str
  | [] => [x]
  | y :: ys => if strLe y x then x :: y :: ys else y :: insertDesc x ys

/-- `sort().reverse()`: the list sorted descending. -/
def sortDesc (l : List Str) : List Str := l.foldr insertDesc []

/-- `updateIndex` from `storage.js`: insert the date if absent and re-sort
descending. -/
def stUpdateIndex (st : StoreState) (d : Str) : StoreState :=
  if d ∈ st.index then st else { st with index := sortDesc (st.index ++ [d]) }

/-- `saveEntry` from `storage.js`: overwrite the date's cache record, then
update the index. -/
def stSaveEntry (st : StoreState) (d : Str) (r : CacheRec) : StoreState :=
  stUpdateIndex { st with entries := setRec st.entries d r } d

/-- `deleteEntry` from `storage.js`: drop the date's cache record and
filter the date out of the index; the pending queue is not touched. -/
def stDeleteEntry (st : StoreState) (d : Str) : StoreState :=
  { st with
      entries := st.entries.filter fun p => !decide (p.1 = d)
      index := st.index.filter fun x => !decide (x = d) }

/-- `addPending` from `storage.js`: append if not already queued. -/
def stAddPending (st : StoreState) (d : Str) : StoreState :=
  if d ∈ st.pending then st else { st with pending := st.pending ++ [d] }

/-- `removePending` from `storage.js`. -/
def stRemovePending (st : StoreState) (d : Str) : StoreState :=
  { st with pending := st.pending.filter fun x => !decide (x = d) }

/-- `markSynced` from `storage.js`: when the record exists, set
`synced = true` and store the fresh version token; always remove the
date from the pending queue. -/
def stMarkSynced (st : StoreState) (d : Str) (sha : Str) : StoreState :=
  let st1 := match lookupRec st d with
    | some cr =>
      { st with entries := setRec st.entries d { cr with synced := true, sha := some sha } }
    | none => st
  stRemovePending st1 d

/-- `markPending` from `storage.js`: when the record exists, set
`synced = false`; always add the date to the pending queue. -/
def stMarkPending (st : StoreState) (d : Str) : StoreState :=
  let st1 := match lookupRec st d with
    | some cr =>
      { st with entries := setRec st.entries d { cr with synced := false } }
    | none => st
  stAddPending st1 d

/-- Outcome of one remote write as seen by the sync coordinator. -/
inductive SyncResult where
  | ok : Str → SyncResult
  | fail : SyncResult
deriving DecidableEq

/-- `syncEntry` from `app.js`: skip when the date has no cached markdown;
on a successful remote write mark the entry synced with the returned
token, on failure mark it pending. -/
def appSyncEntry (st : StoreState) (d : Str) (r : SyncResult) : StoreState :=
  match lookupRec st d with
  | none => st
  | some cr =>
    if cr.markdown = [] then st
    else match r with
      | .ok sha => stMarkSynced st d sha
      | .fail => stMarkPending st d

/-- `cached?.sha || null`: a missing or falsy cached token becomes null. -/
def cachedShaOr (c : Option CacheRec) : Option Str :=
  match c with
  | some cr => match cr.sha with
    | some s => if s = [] then none else some s
    | none => none
  | none => none

/-- The cache record written by `saveCurrentEntry`: the serialized entry,
the previously cached version token (or null), not yet synced. -/
def savedRec (st : StoreState) (d : Str) (e : Entry) : CacheRec where
  markdown := toMarkdown e
  sha := cachedShaOr (lookupRec st d)
  synced := false

/-- `saveCurrentEntry` from `app.js`: validate (abort on failure),
serialize, overwrite the cache record as unsynced, add the date to the
index, then either sync immediately (online, with the given remote
outcome) or mark the entry pending (offline). -/
def appSaveCurrent (st : StoreState) (d : Str) (e : Entry) (online : Bool)
    (r : SyncResult) : StoreState :=
  if (validateEntry e).1 = false then st
  else
    let st1 := stSaveEntry st d (savedRec st d e)
    let st2 := stUpdateIndex st1 d
    if online then appSyncEntry st2 d r else stMarkPending st2 d

/-- The body of `syncPendingEntries`: sync each date of the queue
snapshot in order, each write ending with the given outcome. -/
def drainGo (st : StoreState) (ds : List Str) (res : Str → SyncResult) : StoreState :=
  match ds with
  | [] => st
  | d :: rest => drainGo (appSyncEntry st d (res d)) rest res

/-- The store effect of one full `syncPendingEntries` run. -/
def appSyncAll (st : StoreState) (res : Str → SyncResult) : StoreState :=
  drainGo st st.pending res

/-- The save/sync operations of the application layer, each taken as one
logical transaction (the granularity at which the queue/state invariant
is claimed). -/
inductive AppOp where
  | save : Str → Entry → Bool → SyncResult → AppOp
  | syncOne : Str → SyncResult → AppOp
  | drain : (Str → SyncResult) → AppOp

def appApply (st : StoreState) (op : AppOp) : StoreState :=
  match op with
  | .save d e online r => appSaveCurrent st d e online r
  | .syncOne d r => appSyncEntry st d r
  | .drain res => appSyncAll st res

def appRun (st : StoreState) (ops : List AppOp) : StoreState := ops.foldl appApply st

/-- The queue/state consistency invariant: a date is queued exactly when
its cache record exists and is not synced. -/
def queueConsistent (st : StoreState) : Prop :=
  ∀ d, d ∈ st.pending ↔ ∃ cr, lookupRec st d = some cr ∧ cr.synced = false

/-- One entry of a JSON export's `entries` map, as read by
`importFromJSON`. -/
structure ImportRec where
  markdown : Str
  sha : Option Str
deriving DecidableEq

/-- `entry.sha || null` from `importFromJSON`. -/
def importShaOr (v : Option Str) : Option Str :=
  match v with
  | some s => if s = [] then none else some s
  | none => none

/-- Whether a date currently has a cache record marked synced. -/
def syncedAt (st : StoreState) (d : Str) : Bool :=
  match lookupRec st d with
  | some cr => cr.synced
  | none => false

/-- The `importFromJSON` loop over the export's `(date, entry)` pairs,
carrying the `imported` and `skipped` counters: malformed date shapes
and dates whose local record is synced are skipped; everything else is
saved unsynced and added to the index. -/
def importGo : StoreState → Nat → Nat → List (Str × ImportRec) → StoreState × Nat × Nat
  | st, imp, skip, [] => (st, imp, skip)
  | st, imp, skip, (d, r) :: rest =>
    if jsDateRe d = false then importGo st imp (skip + 1) rest
    else
      match lookupRec st d with
      | some ex =>
        if ex.synced then importGo st imp (skip + 1) rest
        else importGo
          (stUpdateIndex (stSaveEntry st d ⟨r.markdown, importShaOr r.sha, false⟩) d)
          (imp + 1) skip rest
      | none => importGo
          (stUpdateIndex (stSaveEntry st d ⟨r.markdown, importShaOr r.sha, false⟩) d)
          (imp + 1) skip rest

/-- `importFromJSON` from `export.js`, starting both counters at zero. -/
def importFromJSON (st : StoreState) (data : List (Str × ImportRec)) :
    StoreState × Nat × Nat :=
  importGo st 0 0 data

/-- A thrown JavaScript error as the GitHub module builds them: an
optional HTTP status and a message. -/
structure JsError where
  status : Option Int
  message : Str
deriving DecidableEq

/-- The fail-fast test of `withRetry`:
`error.status === 401 || error.status === 403 || error.status === 404`. -/
def authStatus (s : Option Int) : Bool :=
  s = some 401 || s = some 403 || s = some 404

/-- The `withRetry` loop from `github.js` over a sequence of attempt
outcomes, also recording the backoff delays slept (in milliseconds,
`2^i * 1000` after the failed attempt of index `i`); when the attempts
are exhausted the last error is thrown. -/
def withRetryGo {α : Type} (fn : Nat → Except JsError α) :
    Nat → Nat → Option JsError → Except JsError α × List Nat
  | _, 0, last => (.error (last.getD ⟨none, lit "undefined"⟩), [])
  | i, fuel + 1, _ =>
    match fn i with
    | .ok v => (.ok v, [])
    | .error e =>
      if authStatus e.status then (.error e, [])
      else
        let p := withRetryGo fn (i + 1) fuel (some e)
        (p.1, 1000 * 2 ^ i :: p.2)

/-- `withRetry(fn, maxRetries)` together with its backoff-delay trace. -/
def withRetry {α : Type} (fn : Nat → Except JsError α) (maxRetries : Nat) :
    Except JsError α × List Nat :=
  withRetryGo fn 0 maxRetries none

/-- `response.ok`: status in the 2xx range. -/
def httpOk (status : Int) : Bool := 200 ≤ status && status < 300

/-- The error `putFile` throws for a non-ok response: status attached,
message replaced by the conflict message exactly when the status is
409. -/
def putFileErr (status : Int) : JsError where
  status := some status
  message :=
    if status = 409 then lit "Conflict: file was modified externally"
    else lit "Failed to save file"

/-- `putFile` from `github.js`, as a function of the response it gets
back: an ok response yields the new content sha, anything else throws
`putFileErr`. -/
def putFile (respStatus : Int) (respSha : Str) : Except JsError Str :=
  if httpOk respStatus then .ok respSha else .error (putFileErr respStatus)

/-- Modelled from the spec: the versioned remote file store's PUT
semantics for an existing file (`github.js` only consumes the response;
the server is outside the repository).  A write conditioned on a version
token applies only if the remote content is still at that token; a token
mismatch — including asserting absence of an existing file — is answered
with status 409. -/
def remotePutStatus (current : Str) (supplied : Option Str) : Int :=
  if supplied = some current then 200 else 409

/-- A conditional remote write: the server's answer fed through
`putFile`. -/
def writeWithToken (current : Str) (supplied : Option Str) (newSha : Str) :
    Except JsError Str :=
  putFile (remotePutStatus current supplied) newSha

/-- `PAGE_SIZE` from `index.js`. -/
def PAGE_SIZE : Nat := 50

/-- The module state of `index.js`: the date list, the current page, and
the (lower-cased, trimmed) search query. -/
structure IdxState where
  index : List Str
  currentPage : Int
  searchQuery : Str
deriving DecidableEq

/-- The cached-document text match of `getFilteredDates`. -/
def entryTextMatch (store : StoreState) (q : Str) (d : Str) : Bool :=
  match lookupRec store d with
  | some cr => if cr.markdown ≠ [] then jsIncludes (lowerStr cr.markdown) q else false
  | none => false

/-- `getFilteredDates` from `index.js`: with an empty query the whole
index; otherwise dates whose string contains the query or whose cached
markdown (lower-cased) contains it. -/
def getFilteredDates (store : StoreState) (st : IdxState) : List Str :=
  if st.searchQuery = [] then st.index
  else st.index.filter fun d =>
    jsIncludes d st.searchQuery || entryTextMatch store st.searchQuery d

/-- The record returned by `getPage`. -/
structure PageResult where
  pageDates : List Str
  page : Int
  totalPages : Int
  hasNext : Bool
  hasPrev : Bool
  totalCount : Nat
deriving DecidableEq

/-- `getPage` from `index.js`: compute the filtered set, clamp the stored
current page into `[1, totalPages]` (total is at least one even when
empty), and return the page slice with navigation flags, together with
the updated module state. -/
def getPage (store : StoreState) (st : IdxState) : PageResult × IdxState :=
  let filtered := getFilteredDates store st
  let totalPages : Int := max 1 (((filtered.length + PAGE_SIZE - 1) / PAGE_SIZE : Nat) : Int)
  let p := max 1 (min st.currentPage totalPages)
  ({ pageDates := (filtered.drop ((p - 1) * (PAGE_SIZE : Int)).toNat).take PAGE_SIZE
     page := p
     totalPages := totalPages
     hasNext := decide (p < totalPages)
     hasPrev := decide (1 < p)
     totalCount := filtered.length },
   { st with currentPage := p })

/-- `setDates` from `index.js` (authoritative replace, sorted
descending). -/
def idxSetDates (st : IdxState) (ds : List Str) : IdxState :=
  { st with index := sortDesc ds }

/-- `addDate` from `index.js` (idempotent insert, re-sort). -/
def idxAddDate (st : IdxState) (d : Str) : IdxState :=
  if d ∈ st.index then st else { st with index := sortDesc (st.index ++ [d]) }

/-- `removeDate` from `index.js`. -/
def idxRemoveDate (st : IdxState) (d : Str) : IdxState :=
  { st with index := st.index.filter fun x => !decide (x = d) }

/-- `setSearchQuery` from `index.js`: lower-case, trim, reset to page
one. -/
def idxSetSearchQuery (st : IdxState) (q : Str) : IdxState :=
  { st with searchQuery := trimStr (lowerStr q), currentPage := 1 }

/-- `nextPage` from `index.js`. -/
def idxNextPage (store : StoreState) (st : IdxState) : Bool × IdxState :=
  let pr := getPage store st
  if pr.1.hasNext then (true, { pr.2 with currentPage := pr.2.currentPage + 1 })
  else (false, pr.2)

/-- `prevPage` from `index.js`. -/
def idxPrevPage (st : IdxState) : Bool × IdxState :=
  if 1 < st.currentPage then (true, { st with currentPage := st.currentPage - 1 })
  else (false, st)

/-- `goToPage` from `index.js`. -/
def idxGoToPage (st : IdxState) (p : Int) : IdxState :=
  { st with currentPage := max 1 p }

/-- State of the sync coordinator's event loop: the store, the
`syncInProgress` flag, and the queue drains currently alive (each is the
list of dates it still has to write).  The drain list lets the model
even express the fault the guard prevents — a run with several
simultaneous drains — so that single-flight is a provable property
rather than a modelling assumption. -/
structure SyncMachine where
  store : StoreState
  inProgress : Bool
  drains : List (List Str)

/-- Events interleaved by the single-threaded runtime: a trigger of
`syncPendingEntries` (periodic timer, online event or manual call, with
the current connectivity), and completion of the awaited remote write of
the oldest active drain. -/
inductive SyncEv where
  | invoke : Bool → SyncEv
  | drainStep : SyncResult → SyncEv

/-- One event of the coordinator.  `invoke` mirrors the entry of
`syncPendingEntries`: a no-op when a drain is in flight or offline or
nothing is pending, otherwise it snapshots the queue and starts a drain.
`drainStep` advances the oldest drain by one awaited write, clearing the
flag when the drain is exhausted. -/
def syncStep (s : SyncMachine) (ev : SyncEv) : SyncMachine :=
  match ev with
  | .invoke online =>
    if s.inProgress || !online then s
    else if s.store.pending.isEmpty then s
    else { s with inProgress := true, drains := s.drains ++ [s.store.pending] }
  | .drainStep r =>
    match s.drains with
    | [] => s
    | [] :: others => { s with inProgress := false, drains := others }
    | (d :: rest) :: others =>
      { s with store := appSyncEntry s.store d r, drains := rest :: others }

def syncRun (s : SyncMachine) (evs : List SyncEv) : SyncMachine :=
  evs.foldl syncStep s

/-- The coordinator's initial state: no drain running. -/
def syncInit (st : StoreState) : SyncMachine := ⟨st, false, []⟩

/-- The entry record exactly as claim C1 describes a valid entry: a date,
five scores, a net worth delta, and sixteen section texts. -/
structure PlainEntry where
  pdate : Str
  pscore : Int
  pdiscipline : Int
  pfocus : Int
  penergy : Int
  pmood : Int
  pnwd : Int
  t1 : Str
  t2 : Str
  t3 : Str
  t4a : Str
  t4b : Str
  t4c : Str
  t4d : Str
  t4e : Str
  t5 : Str
  t6 : Str
  t7 : Str
  t8 : Str
  t9 : Str
  t10 : Str
  t11 : Str
deriving DecidableEq

/-- The `Entry` object holding exactly the claim's fields (no `schema`
property). -/
def toEntry (p : PlainEntry) : Entry where
  schema := none
  date := some (JVal.str p.pdate)
  score := some (JVal.num p.pscore)
  discipline := some (JVal.num p.pdiscipline)
  focus := some (JVal.num p.pfocus)
  energy := some (JVal.num p.penergy)
  mood := some (JVal.num p.pmood)
  net_worth_delta := some (JVal.num p.pnwd)
  section_1 := some p.t1
  section_2 := some p.t2
  section_3 := some p.t3
  section_4a := some p.t4a
  section_4b := some p.t4b
  section_4c := some p.t4c
  section_4d := some p.t4d
  section_4e := some p.t4e
  section_5 := some p.t5
  section_6 := some p.t6
  section_7 := some p.t7
  section_8 := some p.t8
  section_9 := some p.t9
  section_10 := some p.t10
  section_11 := some p.t11

/-- Validity as claim C1 states it: a `YYYY-MM-DD`-shaped date and the
five scores within `[0, 10]` (`pnwd` is numeric by construction). -/
def validPlain (p : PlainEntry) : Bool :=
  jsDateRe p.pdate &&
  decide (0 ≤ p.pscore) && decide (p.pscore ≤ 10) &&
  decide (0 ≤ p.pdiscipline) && decide (p.pdiscipline ≤ 10) &&
  decide (0 ≤ p.pfocus) && decide (p.pfocus ≤ 10) &&
  decide (0 ≤ p.penergy) && decide (p.penergy ≤ 10) &&
  decide (0 ≤ p.pmood) && decide (p.pmood ≤ 10)

/-- No line of the text is taken for a `# N.` section heading. -/
def mainFreeLines (t : Str) : Bool :=
  (splitLines t).all fun l => (parseMainHeading? l).isNone

/-- No line of the text is taken for a `## <subsection>` heading. -/
def subFreeLines (t : Str) : Bool :=
  (splitLines t).all fun l => (parseSubHeading? l).isNone

/-- The section texts contain no lines that the parser reads as headings:
no `# N.` lines anywhere, and no subsection heading lines inside the
five section-4 subsection texts. -/
def noHeadingInjection (p : PlainEntry) : Bool :=
  mainFreeLines p.t1 && mainFreeLines p.t2 && mainFreeLines p.t3 &&
  mainFreeLines p.t4a && mainFreeLines p.t4b && mainFreeLines p.t4c &&
  mainFreeLines p.t4d && mainFreeLines p.t4e &&
  mainFreeLines p.t5 && mainFreeLines p.t6 && mainFreeLines p.t7 &&
  mainFreeLines p.t8 && mainFreeLines p.t9 && mainFreeLines p.t10 &&
  mainFreeLines p.t11 &&
  subFreeLines p.t4a && subFreeLines p.t4b && subFreeLines p.t4c &&
  subFreeLines p.t4d && subFreeLines p.t4e

/-- Equality with the original record up to trimming of each section
text, field by field over exactly the fields of the claim's record. -/
abbrev matchesModTrim (e : Entry) (p : PlainEntry) : Prop :=
  e.date = some (JVal.str p.pdate) ∧
  e.score = some (JVal.num p.pscore) ∧
  e.discipline = some (JVal.num p.pdiscipline) ∧
  e.focus = some (JVal.num p.pfocus) ∧
  e.energy = some (JVal.num p.penergy) ∧
  e.mood = some (JVal.num p.pmood) ∧
  e.net_worth_delta = some (JVal.num p.pnwd) ∧
  e.section_1 = some (trimStr p.t1) ∧
  e.section_2 = some (trimStr p.t2) ∧
  e.section_3 = some (trimStr p.t3) ∧
  e.section_4a = some (trimStr p.t4a) ∧
  e.section_4b = some (trimStr p.t4b) ∧
  e.section_4c = some (trimStr p.t4c) ∧
  e.section_4d = some (trimStr p.t4d) ∧
  e.section_4e = some (trimStr p.t4e) ∧
  e.section_5 = some (trimStr p.t5) ∧
  e.section_6 = some (trimStr p.t6) ∧
  e.section_7 = some (trimStr p.t7) ∧
  e.section_8 = some (trimStr p.t8) ∧
  e.section_9 = some (trimStr p.t9) ∧
  e.section_10 = some (trimStr p.t10) ∧
  e.section_11 = some (trimStr p.t11)

/-- A concrete valid entry used throughout the examples. -/
def samplePlain : PlainEntry where
  pdate := lit "2025-12-25"
  pscore := 8
  pdiscipline := 9
  pfocus := 7
  penergy := 8
  pmood := 8
  pnwd := 1000
  t1 := lit "I am building..."
  t2 := lit ""
  t3 := lit "  deep work 9-12 "
  t4a := lit "run 5k"
  t4b := lit "lean proofs"
  t4c := lit "ship"
  t4d := lit "hire"
  t4e := lit "read"
  t5 := lit "assets up"
  t6 := lit "decided X\nbecause Y"
  t7 := lit ""
  t8 := lit ""
  t9 := lit "won"
  t10 := lit ""
  t11 := lit "grateful"

/-- The metadata-block lines of the document `toMarkdown` produces for a
plain record. -/
def metaLinesOf (p : PlainEntry) : List Str :=
  [lit "---", lit "schema: 1", lit "date: " ++ p.pdate,
   lit "score: " ++ intToChars p.pscore,
   lit "discipline: " ++ intToChars p.pdiscipline,
   lit "focus: " ++ intToChars p.pfocus,
   lit "energy: " ++ intToChars p.penergy,
   lit "mood: " ++ intToChars p.pmood,
   lit "net_worth_delta: " ++ intToChars p.pnwd, lit "---"]

/-- The content lines following the first blank line after the metadata
block, grouped into the chunks headed by each section heading. -/
def contentTailOf (p : PlainEntry) : List Str :=
  (hd1 :: (splitNl p.t1 ++ [lit ""])) ++
  (hd2 :: (splitNl p.t2 ++ [lit ""])) ++
  (hd3 :: (splitNl p.t3 ++ [lit ""])) ++
  (hd4 :: [lit ""]) ++
  (sub4a :: (splitNl p.t4a ++ [lit ""])) ++
  (sub4b :: (splitNl p.t4b ++ [lit ""])) ++
  (sub4c :: (splitNl p.t4c ++ [lit ""])) ++
  (sub4d :: (splitNl p.t4d ++ [lit ""])) ++
  (sub4e :: (splitNl p.t4e ++ [lit ""])) ++
  (hd5 :: (splitNl p.t5 ++ [lit ""])) ++
  (hd6 :: (splitNl p.t6 ++ [lit ""])) ++
  (hd7 :: (splitNl p.t7 ++ [lit ""])) ++
  (hd8 :: (splitNl p.t8 ++ [lit ""])) ++
  (hd9 :: (splitNl p.t9 ++ [lit ""])) ++
  (hd10 :: (splitNl p.t10 ++ [lit ""])) ++
  (hd11 :: splitNl p.t11)

/-- All content lines of the document (after the closing `---` line). -/
def contentLinesOf (p : PlainEntry) : List Str := lit "" :: contentTailOf p

/-- The frontmatter object `parseFrontmatter` recovers from such a
document. -/
def fmListOf (p : PlainEntry) : List (Str × JVal) :=
  [(lit "schema", JVal.num 1), (lit "date", JVal.str p.pdate),
   (lit "score", JVal.num p.pscore), (lit "discipline", JVal.num p.pdiscipline),
   (lit "focus", JVal.num p.pfocus), (lit "energy", JVal.num p.penergy),
   (lit "mood", JVal.num p.pmood), (lit "net_worth_delta", JVal.num p.pnwd)]

/-- The sections object `parseSections` recovers from such a document
(the empty `section_4` entry comes from the blank line between the
section-4 heading and its first subsection heading). -/
def secListOf (p : PlainEntry) : List (Str × Str) :=
  [(lit "section_1", trimStr p.t1), (lit "section_2", trimStr p.t2),
   (lit "section_3", trimStr p.t3), (lit "section_4", ([] : Str)),
   (lit "section_4a", trimStr p.t4a), (lit "section_4b", trimStr p.t4b),
   (lit "section_4c", trimStr p.t4c), (lit "section_4d", trimStr p.t4d),
   (lit "section_4e", trimStr p.t4e), (lit "section_5", trimStr p.t5),
   (lit "section_6", trimStr p.t6), (lit "section_7", trimStr p.t7),
   (lit "section_8", trimStr p.t8), (lit "section_9", trimStr p.t9),
   (lit "section_10", trimStr p.t10), (lit "section_11", trimStr p.t11)]

/-- `samplePlain` with a first line in section 1 that the parser reads as
a section-2 heading. -/
def cexPlain : PlainEntry := { samplePlain with t1 := lit "# 2. hijack" }

/-- No carriage return in any of the record's section texts (the date and
the printed scores cannot contain one).  `toMarkdown` joins lines with
`'\n'` but the parsers split at `/\r?\n/`, so a `"\r\n"` inside a
section text is collapsed to `"\n"` by a round trip. -/
def crFree (p : PlainEntry) : Bool :=
  decide ('\r' ∉ p.t1) && decide ('\r' ∉ p.t2) && decide ('\r' ∉ p.t3) &&
  decide ('\r' ∉ p.t4a) && decide ('\r' ∉ p.t4b) && decide ('\r' ∉ p.t4c) &&
  decide ('\r' ∉ p.t4d) && decide ('\r' ∉ p.t4e) &&
  decide ('\r' ∉ p.t5) && decide ('\r' ∉ p.t6) && decide ('\r' ∉ p.t7) &&
  decide ('\r' ∉ p.t8) && decide ('\r' ∉ p.t9) && decide ('\r' ∉ p.t10) &&
  decide ('\r' ∉ p.t11)

/-- `samplePlain` with a Windows line break inside section 1. -/
def crPlain : PlainEntry := { samplePlain with t1 := lit "a\r\nb" }

/-- The attempt-index probe: an operation that always answers with a 409
Conflict and records in the error message the index of the attempt that
produced it. -/
def conflictProbe (i : Nat) : Except JsError Str :=
  .error ⟨some 409, natToChars i⟩

/-- Invariant of the sync coordinator: when no drain is in progress none
is recorded as active, and at most one drain list is ever active. -/
def syncInv (s : SyncMachine) : Prop :=
  (s.inProgress = false → s.drains = []) ∧ s.drains.length ≤ 1

theorem splitNl_ne_nil (s : Str) : splitNl s ≠ [] := by
  induction s with
  | nil => simp [splitNl]
  | cons c cs ih =>
    simp only [splitNl]
    split
    · simp
    · rcases h : splitNl cs with _ | ⟨h0, t⟩
      · simp
      · simp

theorem splitNl_append_newline (a b : Str) :
    splitNl (a ++ '\n' :: b) = splitNl a ++ splitNl b := by
  induction a with
  | nil => simp [splitNl]
  | cons c cs ih =>
    by_cases hc : c = '\n'
    · subst hc
      simp [splitNl, ih]
    · rcases h : splitNl cs with _ | ⟨h0, t⟩
      · exact absurd h (splitNl_ne_nil cs)
      · simp [splitNl, hc, ih, h, List.cons_append]

theorem splitNl_joinLines (L : List Str) (h : L ≠ []) :
    splitNl (joinLines L) = (L.map splitNl).flatten := by
  induction L with
  | nil => exact absurd rfl h
  | cons l ls ih =>
    rcases ls with _ | ⟨l2, ls2⟩
    · simp [joinLines]
    · have hj : joinLines (l :: l2 :: ls2) = l ++ '\n' :: joinLines (l2 :: ls2) := rfl
      rw [hj, splitNl_append_newline, ih (by simp)]
      simp

theorem joinLines_splitNl (s : Str) : joinLines (splitNl s) = s := by
  induction s with
  | nil => rfl
  | cons c cs ih =>
    by_cases hc : c = '\n'
    · subst hc
      simp only [splitNl, if_pos rfl]
      rcases h : splitNl cs with _ | ⟨h0, t⟩
      · exact absurd h (splitNl_ne_nil cs)
      · rw [h] at ih
        show joinLines ([] :: h0 :: t) = '\n' :: cs
        show [] ++ '\n' :: joinLines (h0 :: t) = '\n' :: cs
        rw [ih]
        rfl
    · simp only [splitNl, if_neg hc]
      rcases h : splitNl cs with _ | ⟨h0, t⟩
      · exact absurd h (splitNl_ne_nil cs)
      · rw [h] at ih
        rcases t with _ | ⟨t0, ts⟩
        · show c :: h0 = c :: cs
          rw [show h0 = joinLines [h0] from rfl, ih]
        · show (c :: h0) ++ '\n' :: joinLines (t0 :: ts) = c :: cs
          have : h0 ++ '\n' :: joinLines (t0 :: ts) = joinLines (h0 :: t0 :: ts) := rfl
          simp only [List.cons_append, this, ih]

theorem no_newline_of_mem_splitNl (s : Str) :
    ∀ l ∈ splitNl s, '\n' ∉ l := by
  induction s with
  | nil =>
    intro l hl
    simp [splitNl] at hl
    simp [hl]
  | cons c cs ih =>
    intro l hl
    by_cases hc : c = '\n'
    · subst hc
      simp only [splitNl, if_pos rfl] at hl
      rcases List.mem_cons.mp hl with hl | hl
      · simp [hl]
      · exact ih l hl
    · rcases h : splitNl cs with _ | ⟨h0, t⟩
      · exact absurd h (splitNl_ne_nil cs)
      · simp only [splitNl, if_neg hc, h] at hl
        rcases List.mem_cons.mp hl with hl | hl
        · subst hl
          have hh0 : '\n' ∉ h0 := ih h0 (by rw [h]; exact List.mem_cons_self _ _)
          intro hmem
          rcases List.mem_cons.mp hmem with hmem | hmem
          · exact hc hmem.symm
          · exact hh0 hmem
        · exact ih l (by rw [h]; exact List.mem_cons_of_mem _ hl)

theorem splitNl_of_no_newline (s : Str) (h : '\n' ∉ s) : splitNl s = [s] := by
  induction s with
  | nil => rfl
  | cons c cs ih =>
    have hc : ¬ c = '\n' := fun hh => h (by simp [hh])
    have hcs : '\n' ∉ cs := fun hh => h (List.mem_cons_of_mem _ hh)
    simp only [splitNl, if_neg hc, ih hcs]

theorem stripCR_of_noCR (s : Str) (h : '\r' ∉ s) : stripCR s = s := by
  induction s with
  | nil => rfl
  | cons c cs ih =>
    have hc : ¬ c = '\r' := fun hh => h (by simp [hh])
    have hcs : '\r' ∉ cs := fun hh => h (List.mem_cons_of_mem _ hh)
    rcases cs with _ | ⟨c2, cs2⟩
    · rfl
    · show (if c = '\r' ∧ c2 = '\n' then '\n' :: stripCR cs2
        else c :: stripCR (c2 :: cs2)) = c :: c2 :: cs2
      rw [if_neg (fun hand => hc hand.1), ih hcs]

theorem splitLines_eq_splitNl (s : Str) (h : '\r' ∉ s) :
    splitLines s = splitNl s := by
  unfold splitLines
  rw [stripCR_of_noCR s h]

theorem noCR_label (pre s : Str) (hpre : '\r' ∉ pre)
    (hs : ∀ c ∈ s, isWsChar c = false) : '\r' ∉ pre ++ s := by
  intro hm
  rcases List.mem_append.mp hm with h | h
  · exact hpre h
  · exact absurd (hs '\r' h) (by decide)

theorem noCR_joinLines (L : List Str) (h : ∀ l ∈ L, '\r' ∉ l) :
    '\r' ∉ joinLines L := by
  induction L with
  | nil => simp [joinLines]
  | cons l ls ih =>
    rcases ls with _ | ⟨l2, ls2⟩
    · exact h l (List.mem_cons_self _ _)
    · show '\r' ∉ l ++ '\n' :: joinLines (l2 :: ls2)
      intro hm
      rcases List.mem_append.mp hm with hx | hx
      · exact h l (List.mem_cons_self _ _) hx
      · rcases List.mem_cons.mp hx with hx | hx
        · cases hx
        · exact ih (fun l' hl' => h l' (List.mem_cons_of_mem _ hl')) hx

theorem joinLines_append (A B : List Str) (hA : A ≠ []) (hB : B ≠ []) :
    joinLines (A ++ B) = joinLines A ++ '\n' :: joinLines B := by
  induction A with
  | nil => exact absurd rfl hA
  | cons a as ih =>
    rcases as with _ | ⟨a2, as2⟩
    · rcases B with _ | ⟨b, bs⟩
      · exact absurd rfl hB
      · rfl
    · show a ++ '\n' :: joinLines ((a2 :: as2) ++ B) =
        (a ++ '\n' :: joinLines (a2 :: as2)) ++ '\n' :: joinLines B
      rw [ih (by simp)]
      simp

theorem joinLines_append_single (A : List Str) (x : Str) (h : A ≠ []) :
    joinLines (A ++ [x]) = joinLines A ++ '\n' :: x := by
  induction A with
  | nil => exact absurd rfl h
  | cons a as ih =>
    rcases as with _ | ⟨a2, as2⟩
    · rfl
    · have h2 : (a2 :: as2 : List Str) ≠ [] := by simp
      show a ++ '\n' :: joinLines ((a2 :: as2) ++ [x]) =
        (a ++ '\n' :: joinLines (a2 :: as2)) ++ '\n' :: x
      rw [ih h2]
      simp

theorem dropTrail_of_noWs (s : Str) (h : ∀ c ∈ s, isWsChar c = false) :
    dropTrail s = s := by
  unfold dropTrail
  rcases hr : s.reverse with _ | ⟨c, t⟩
  · simp at hr
    simp [hr]
  · have hc : c ∈ s := by
      have : c ∈ s.reverse := by rw [hr]; exact List.mem_cons_self _ _
      simpa using this
    rw [List.dropWhile_cons_of_neg (by simp [h c hc])]
    rw [← hr, List.reverse_reverse]

theorem dropLead_of_noWs (s : Str) (h : ∀ c ∈ s, isWsChar c = false) :
    dropLead s = s := by
  unfold dropLead
  rcases s with _ | ⟨c, t⟩
  · rfl
  · rw [List.dropWhile_cons_of_neg (by simp [h c (List.mem_cons_self _ _)])]

theorem trimStr_of_noWs (s : Str) (h : ∀ c ∈ s, isWsChar c = false) :
    trimStr s = s := by
  unfold trimStr
  rw [dropTrail_of_noWs s h, dropLead_of_noWs s h]

theorem trimStr_append_ws (s : Str) (c : Char) (hc : isWsChar c = true) :
    trimStr (s ++ [c]) = trimStr s := by
  unfold trimStr dropTrail
  have : (s ++ [c]).reverse = c :: s.reverse := by simp
  rw [this, List.dropWhile_cons_of_pos (by simp [hc])]

theorem trimStr_space_of_noWs (v : Str) (h : ∀ c ∈ v, isWsChar c = false) :
    trimStr (' ' :: v) = v := by
  rcases hv : v.reverse with _ | ⟨c, t⟩
  · have : v = [] := by simpa using congrArg List.reverse hv
    subst this
    decide
  · have hcv : c ∈ v := by
      rw [← List.mem_reverse, hv]
      exact List.mem_cons_self _ _
    have hdt : dropTrail (' ' :: v) = ' ' :: v := by
      unfold dropTrail
      rw [show ((' ' :: v : Str).reverse) = v.reverse ++ [' '] by simp, hv,
        List.cons_append, List.dropWhile_cons_of_neg (by simp [h c hcv])]
      rw [show (c :: (t ++ [' '])) = (c :: t) ++ [' '] by simp, ← hv]
      simp
    unfold trimStr
    rw [hdt]
    unfold dropLead
    rw [List.dropWhile_cons_of_pos (by decide)]
    exact dropLead_of_noWs v h

theorem digitVal?_digitChar10 (d : Nat) (h : d < 10) :
    digitVal? (digitChar10 d) = some d := by
  interval_cases d <;> decide

theorem digitChar10_not_ws (d : Nat) (h : d < 10) :
    isWsChar (digitChar10 d) = false := by
  interval_cases d <;> decide

theorem digitChar10_ne_minus (d : Nat) (h : d < 10) :
    digitChar10 d ≠ '-' := by
  interval_cases d <;> decide

theorem natToCharsCore_zero (fuel : Nat) : natToCharsCore fuel 0 = [] := by
  cases fuel <;> rfl

theorem natToCharsCore_mem (fuel m : Nat) :
    ∀ c ∈ natToCharsCore fuel m, ∃ d, d < 10 ∧ c = digitChar10 d := by
  induction fuel generalizing m with
  | zero => simp [natToCharsCore]
  | succ f ih =>
    intro c hc
    by_cases hm : m = 0
    · simp [natToCharsCore, hm] at hc
    · simp only [natToCharsCore, if_neg hm] at hc
      rcases List.mem_append.mp hc with hc | hc
      · exact ih (m / 10) c hc
      · rcases List.mem_singleton.mp hc with rfl
        exact ⟨m % 10, Nat.mod_lt _ (by norm_num), rfl⟩

theorem foldl_digitStep_none (l : Str) : l.foldl digitStep none = none := by
  induction l with
  | nil => rfl
  | cons c cs ih => simpa [digitStep] using ih

theorem natToCharsCore_spec (fuel : Nat) :
    ∀ m, m ≤ fuel → 1 ≤ m →
      1 ≤ (natToCharsCore fuel m).length ∧
      ∀ a : Nat, (natToCharsCore fuel m).foldl digitStep (some a) =
        some (a * 10 ^ (natToCharsCore fuel m).length + m) := by
  induction fuel with
  | zero => intro m hm h1; omega
  | succ f ih =>
    intro m hm h1
    have hm0 : ¬ m = 0 := by omega
    by_cases hsmall : m < 10
    · have hdiv : m / 10 = 0 := Nat.div_eq_of_lt hsmall
      have hmod : m % 10 = m := Nat.mod_eq_of_lt hsmall
      simp only [natToCharsCore, if_neg hm0, hdiv, natToCharsCore_zero, hmod,
        List.nil_append]
      refine ⟨by simp, fun a => ?_⟩
      simp [digitStep, digitVal?_digitChar10 m hsmall]
    · have hd1 : 1 ≤ m / 10 := by omega
      have hdf : m / 10 ≤ f := by omega
      obtain ⟨hlen, hfold⟩ := ih (m / 10) hdf hd1
      simp only [natToCharsCore, if_neg hm0]
      constructor
      · simp
      · intro a
        rw [List.foldl_append, hfold a]
        have hlt : m % 10 < 10 := Nat.mod_lt _ (by norm_num)
        have hstep : List.foldl digitStep
            (some (a * 10 ^ (natToCharsCore f (m / 10)).length + m / 10))
            [digitChar10 (m % 10)] =
            some ((a * 10 ^ (natToCharsCore f (m / 10)).length + m / 10) * 10 +
              m % 10) := by
          simp [digitStep, digitVal?_digitChar10 _ hlt]
        have hlen2 : (natToCharsCore f (m / 10) ++ [digitChar10 (m % 10)]).length =
            (natToCharsCore f (m / 10)).length + 1 := by simp
        rw [hstep, hlen2]
        congr 1
        have hdm : m / 10 * 10 + m % 10 = m := by omega
        calc (a * 10 ^ (natToCharsCore f (m / 10)).length + m / 10) * 10 + m % 10
            = a * (10 ^ (natToCharsCore f (m / 10)).length * 10) +
              (m / 10 * 10 + m % 10) := by ring
          _ = a * 10 ^ ((natToCharsCore f (m / 10)).length + 1) + m := by
              rw [pow_succ, hdm]

theorem natToChars_ne_nil (m : Nat) : natToChars m ≠ [] := by
  by_cases hm : m = 0
  · simp [natToChars, hm]
  · have h1 : 1 ≤ m := by omega
    obtain ⟨hlen, _⟩ := natToCharsCore_spec m m le_rfl h1
    simp only [natToChars, if_neg hm]
    intro h
    rw [h] at hlen
    simp at hlen

theorem natToChars_mem (m : Nat) :
    ∀ c ∈ natToChars m, ∃ d, d < 10 ∧ c = digitChar10 d := by
  by_cases hm : m = 0
  · intro c hc
    simp [natToChars, hm] at hc
    exact ⟨0, by norm_num, by rw [hc]; decide⟩
  · simp only [natToChars, if_neg hm]
    exact natToCharsCore_mem m m

theorem natToChars_digitsOnly (m : Nat) :
    ∀ c ∈ natToChars m, (digitVal? c).isSome = true := by
  intro c hc
  obtain ⟨d, hd, rfl⟩ := natToChars_mem m c hc
  simp [digitVal?_digitChar10 d hd]

theorem natToChars_noWs (m : Nat) :
    ∀ c ∈ natToChars m, isWsChar c = false := by
  intro c hc
  obtain ⟨d, hd, rfl⟩ := natToChars_mem m c hc
  exact digitChar10_not_ws d hd

theorem natToChars_head_ne_minus (m : Nat) :
    ∀ c ∈ natToChars m, c ≠ '-' := by
  intro c hc
  obtain ⟨d, hd, rfl⟩ := natToChars_mem m c hc
  exact digitChar10_ne_minus d hd

theorem parseNatStr_natToChars (m : Nat) : parseNatStr (natToChars m) = some m := by
  by_cases hm : m = 0
  · subst hm; decide
  · have h1 : 1 ≤ m := by omega
    obtain ⟨hlen, hfold⟩ := natToCharsCore_spec m m le_rfl h1
    have hne : natToChars m ≠ [] := natToChars_ne_nil m
    rcases hs : natToChars m with _ | ⟨c, cs⟩
    · exact absurd hs hne
    · have : parseNatStr (natToChars m) = (natToChars m).foldl digitStep (some 0) := by
        rw [hs]; rfl
      rw [← hs, this]
      simp only [natToChars, if_neg hm] at hfold ⊢
      rw [hfold 0]
      simp

theorem intToChars_noWs (i : Int) : ∀ c ∈ intToChars i, isWsChar c = false := by
  intro c hc
  unfold intToChars at hc
  split at hc
  · rcases List.mem_cons.mp hc with rfl | hc
    · decide
    · exact natToChars_noWs _ c hc
  · exact natToChars_noWs _ c hc

theorem takeWhile_all (p : Char → Bool) (l : Str) (h : ∀ c ∈ l, p c = true) :
    l.takeWhile p = l := by
  induction l with
  | nil => rfl
  | cons c cs ih =>
    rw [List.takeWhile_cons, if_pos (h c (List.mem_cons_self _ _))]
    rw [ih (fun c' hc' => h c' (List.mem_cons_of_mem _ hc'))]

theorem dropWhile_all (p : Char → Bool) (l : Str) (h : ∀ c ∈ l, p c = true) :
    l.dropWhile p = [] := by
  induction l with
  | nil => rfl
  | cons c cs ih =>
    rw [List.dropWhile_cons_of_pos (h c (List.mem_cons_self _ _))]
    exact ih (fun c' hc' => h c' (List.mem_cons_of_mem _ hc'))

theorem natToChars_digit10 (m : Nat) : ∀ c ∈ natToChars m, isDigit10 c = true := by
  intro c hc
  exact natToChars_digitsOnly m c hc

theorem digit_ne (x c : Char) (hx : (digitVal? x).isSome = true)
    (hc : (digitVal? c).isSome = false) : ¬ x = c := by
  intro h
  subst h
  rw [hx] at hc
  cases hc

theorem natToChars_ne_lit (m : Nat) (w : String)
    (hw : (digitVal? ((lit w).headD '0')).isSome = false) (hne : lit w ≠ []) :
    natToChars m ≠ lit w := by
  intro he
  rcases hl : lit w with _ | ⟨c0, cr⟩
  · exact hne hl
  · have hc0 : c0 ∈ natToChars m := by
      rw [he, hl]
      exact List.mem_cons_self _ _
    have hd := natToChars_digitsOnly m c0 hc0
    rw [hl] at hw
    rw [show ((c0 :: cr : Str).headD '0') = c0 from rfl, hd] at hw
    cases hw

theorem parseDecQ?_natToChars (m : Nat) : parseDecQ? (natToChars m) = some (m : ℚ) := by
  unfold parseDecQ?
  rw [takeWhile_all _ _ (natToChars_digit10 m), dropWhile_all _ _ (natToChars_digit10 m)]
  dsimp only
  rw [parseNatStr_natToChars m]
  dsimp only [parseExpSuffix]
  rfl

theorem parseDecOrInf_natToChars (m : Nat) :
    parseDecOrInf (natToChars m) = some (.fin (m : ℚ)) := by
  unfold parseDecOrInf
  rw [if_neg (natToChars_ne_lit m "Infinity" (by decide) (by decide)),
    parseDecQ?_natToChars m]
  rfl

theorem nonNegNum_digits2 (c : Char) (cs : Str)
    (h2 : (digitVal? (cs.headD '1')).isSome = true) :
    nonNegNum (c :: cs) = parseDecOrInf (c :: cs) := by
  rcases cs with _ | ⟨c2, r⟩
  · rfl
  · have hd2 : (digitVal? c2).isSome = true := h2
    simp only [nonNegNum]
    have hx : ¬ (c2 = 'x' ∨ c2 = 'X') := by
      rintro (rfl | rfl) <;> exact absurd hd2 (by decide)
    have ho : ¬ (c2 = 'o' ∨ c2 = 'O') := by
      rintro (rfl | rfl) <;> exact absurd hd2 (by decide)
    have hb : ¬ (c2 = 'b' ∨ c2 = 'B') := by
      rintro (rfl | rfl) <;> exact absurd hd2 (by decide)
    by_cases hc0 : c = '0'
    · rw [if_pos hc0, if_neg hx, if_neg ho, if_neg hb]
    · rw [if_neg hc0]

theorem jsStrNum_natToChars (m : Nat) :
    jsStrNum (natToChars m) = some (.fin (m : ℚ)) := by
  unfold jsStrNum
  rw [trimStr_of_noWs _ (natToChars_noWs m)]
  rcases hs : natToChars m with _ | ⟨c, cs⟩
  · exact absurd hs (natToChars_ne_nil m)
  · have hdigit : (digitVal? c).isSome = true :=
      natToChars_digitsOnly m c (by rw [hs]; exact List.mem_cons_self _ _)
    dsimp only
    rw [if_neg (digit_ne c '+' hdigit (by decide)),
      if_neg (digit_ne c '-' hdigit (by decide))]
    have hnn : nonNegNum (c :: cs) = parseDecOrInf (c :: cs) := by
      refine nonNegNum_digits2 c cs ?_
      rcases hcs : cs with _ | ⟨c2', r⟩
      · decide
      · show (digitVal? c2').isSome = true
        refine natToChars_digitsOnly m c2' ?_
        rw [hs, hcs]
        exact List.mem_cons_of_mem _ (List.mem_cons_self _ _)
    rw [hnn, ← hs, parseDecOrInf_natToChars m]

theorem jsStrNum_intToChars (i : Int) :
    jsStrNum (intToChars i) = some (.fin (i : ℚ)) := by
  by_cases hi : i < 0
  · unfold intToChars
    rw [if_pos hi]
    unfold jsStrNum
    have hnoWs : ∀ c ∈ ('-' :: natToChars i.natAbs : Str), isWsChar c = false := by
      intro c hc
      rcases List.mem_cons.mp hc with rfl | hc
      · decide
      · exact natToChars_noWs _ c hc
    rw [trimStr_of_noWs _ hnoWs]
    dsimp only
    rw [if_neg (by decide), if_pos rfl, parseDecOrInf_natToChars i.natAbs]
    show some (jsNumNeg (.fin ((i.natAbs : Nat) : ℚ))) = some (.fin (i : ℚ))
    dsimp only [jsNumNeg]
    have habs : (i.natAbs : ℤ) = -i := by omega
    have hq : -(((i.natAbs : Nat)) : ℚ) = (i : ℚ) := by
      rw [show (((i.natAbs : Nat)) : ℚ) = (((i.natAbs : ℤ)) : ℚ) from
        (Int.cast_natCast _).symm, habs]
      push_cast
      ring
    rw [hq]
  · unfold intToChars
    rw [if_neg hi]
    have htn : (i.toNat : ℤ) = i := by omega
    have hq : ((i.toNat : Nat) : ℚ) = (i : ℚ) := by
      rw [show ((i.toNat : Nat) : ℚ) = (((i.toNat : ℤ)) : ℚ) from
        (Int.cast_natCast _).symm, htn]
    rw [jsStrNum_natToChars, hq]

theorem digit_ne_minus (x : Char) (hx : (digitVal? x).isSome = true) : x ≠ '-' := by
  intro hmem
  subst hmem
  simp [digitVal?] at hx

theorem digit_not_ws (x : Char) (hx : (digitVal? x).isSome = true) :
    isWsChar x = false := by
  unfold digitVal? at hx
  split_ifs at hx <;> simp_all <;> decide

theorem dateRe_shape (s : Str) (h : jsDateRe s = true) :
    ∃ c1 c2 c3 c4 c6 c7 c9 c10,
      s = [c1, c2, c3, c4, '-', c6, c7, '-', c9, c10] ∧
      (digitVal? c1).isSome = true ∧ (digitVal? c2).isSome = true ∧
      (digitVal? c3).isSome = true ∧ (digitVal? c4).isSome = true ∧
      (digitVal? c6).isSome = true ∧ (digitVal? c7).isSome = true ∧
      (digitVal? c9).isSome = true ∧ (digitVal? c10).isSome = true := by
  unfold jsDateRe at h
  split at h
  · rename_i n1 n2 n3 n4 n5 n6 n7 n8 n9 n10
    simp only [Bool.and_eq_true, decide_eq_true_eq] at h
    obtain ⟨⟨⟨⟨⟨⟨⟨⟨⟨h1, h2⟩, h3⟩, h4⟩, h5⟩, h6⟩, h7⟩, h8⟩, h9⟩, h10⟩ := h
    subst h5
    subst h8
    exact ⟨n1, n2, n3, n4, n6, n7, n9, n10, rfl, h1, h2, h3, h4, h6, h7, h9, h10⟩
  · exact absurd h (by simp)

theorem dateRe_noWs (s : Str) (h : jsDateRe s = true) :
    ∀ c ∈ s, isWsChar c = false := by
  obtain ⟨c1, c2, c3, c4, c6, c7, c9, c10, rfl, h1, h2, h3, h4, h6, h7, h9, h10⟩ :=
    dateRe_shape s h
  intro c hmem
  simp only [List.mem_cons, List.not_mem_nil, or_false] at hmem
  rcases hmem with rfl | rfl | rfl | rfl | rfl | rfl | rfl | rfl | rfl | rfl
  · exact digit_not_ws _ h1
  · exact digit_not_ws _ h2
  · exact digit_not_ws _ h3
  · exact digit_not_ws _ h4
  · decide
  · exact digit_not_ws _ h6
  · exact digit_not_ws _ h7
  · decide
  · exact digit_not_ws _ h9
  · exact digit_not_ws _ h10

theorem dateRe_ne_nil (s : Str) (h : jsDateRe s = true) : s ≠ [] := by
  obtain ⟨c1, c2, c3, c4, c6, c7, c9, c10, hs, h1⟩ := dateRe_shape s h
  rw [hs]
  simp

theorem jsDateRe_intToChars (i : Int) : jsDateRe (intToChars i) = false := by
  cases hb : jsDateRe (intToChars i)
  · rfl
  · exfalso
    obtain ⟨c1, c2, c3, c4, c6, c7, c9, c10, hshape, h1, _⟩ := dateRe_shape _ hb
    by_cases hi : i < 0
    · rw [intToChars, if_pos hi] at hshape
      have hc1 : c1 = '-' := (List.cons.injEq _ _ _ _).mp hshape |>.1.symm
      rw [hc1] at h1
      simp [digitVal?] at h1
    · rw [intToChars, if_neg hi] at hshape
      have hmem : '-' ∈ natToChars i.toNat := by
        rw [hshape]
        simp
      have := natToChars_digitsOnly i.toNat '-' hmem
      simp [digitVal?] at this

theorem dateRe_digit_or_dash (s : Str) (h : jsDateRe s = true) :
    ∀ c ∈ s, (digitVal? c).isSome = true ∨ c = '-' := by
  obtain ⟨c1, c2, c3, c4, c6, c7, c9, c10, rfl, h1, h2, h3, h4, h6, h7, h9, h10⟩ :=
    dateRe_shape s h
  intro c hmem
  simp only [List.mem_cons, List.not_mem_nil, or_false] at hmem
  rcases hmem with rfl | rfl | rfl | rfl | rfl | rfl | rfl | rfl | rfl | rfl
  · exact Or.inl h1
  · exact Or.inl h2
  · exact Or.inl h3
  · exact Or.inl h4
  · exact Or.inr rfl
  · exact Or.inl h6
  · exact Or.inl h7
  · exact Or.inr rfl
  · exact Or.inl h9
  · exact Or.inl h10

theorem jsStrNum_dateRe (s : Str) (h : jsDateRe s = true) : jsStrNum s = none := by
  obtain ⟨c1, c2, c3, c4, c6, c7, c9, c10, rfl, h1, h2, h3, h4, h6, h7, h9, h10⟩ :=
    dateRe_shape s h
  have hdec : parseDecOrInf [c1, c2, c3, c4, '-', c6, c7, '-', c9, c10] = none := by
    unfold parseDecOrInf
    rw [if_neg ?hInf]
    case hInf =>
      intro he
      have hlen := congrArg List.length he
      rw [show (lit "Infinity").length = 8 from rfl] at hlen
      simp at hlen
    have hd1 : isDigit10 c1 = true := h1
    have hd2 : isDigit10 c2 = true := h2
    have hd3 : isDigit10 c3 = true := h3
    have hd4 : isDigit10 c4 = true := h4
    have hdm : isDigit10 '-' = false := by decide
    have htake : List.takeWhile isDigit10
        [c1, c2, c3, c4, '-', c6, c7, '-', c9, c10] = [c1, c2, c3, c4] := by
      simp [List.takeWhile_cons, hd1, hd2, hd3, hd4, hdm]
    have hdrop : List.dropWhile isDigit10
        [c1, c2, c3, c4, '-', c6, c7, '-', c9, c10] =
        '-' :: [c6, c7, '-', c9, c10] := by
      simp [List.dropWhile_cons, hd1, hd2, hd3, hd4, hdm]
    unfold parseDecQ?
    rw [htake, hdrop]
    dsimp only
    rcases hp : parseNatStr [c1, c2, c3, c4] with _ | v
    · rfl
    · rfl
  unfold jsStrNum
  rw [trimStr_of_noWs _ (dateRe_noWs _ h)]
  dsimp only
  rw [if_neg (digit_ne c1 '+' h1 (by decide)), if_neg (digit_ne c1 '-' h1 (by decide))]
  rw [nonNegNum_digits2 c1 [c2, c3, c4, '-', c6, c7, '-', c9, c10] h2, hdec]

theorem jsDateRe_ratToChars (q : ℚ) : jsDateRe (ratToChars q) = false := by
  cases hb : jsDateRe (ratToChars q)
  · rfl
  · exfalso
    unfold ratToChars at hb
    by_cases hden : q.den = 1
    · rw [if_pos hden, jsDateRe_intToChars] at hb
      cases hb
    · rw [if_neg hden] at hb
      dsimp only at hb
      rcases dateRe_digit_or_dash _ hb '.'
          (List.mem_append_right _ (List.mem_cons_self _ _)) with hdig | hdash
      · exact absurd hdig (by decide)
      · exact absurd hdash (by decide)

theorem find?_filterOut_none (l : List (Str × CacheRec)) (d : Str) :
    (l.filter fun p => !decide (p.1 = d)).find? (fun p => decide (p.1 = d)) = none := by
  rw [List.find?_eq_none]
  intro x hx
  have hmem := (List.mem_filter.mp hx).2
  simp only [Bool.not_eq_true', decide_eq_false_iff_not] at hmem
  simp [hmem]

theorem lookupPairs_setRec_same (l : List (Str × CacheRec)) (d : Str) (r : CacheRec) :
    lookupPairs (setRec l d r) d = some r := by
  unfold lookupPairs setRec
  rw [List.find?_append, find?_filterOut_none]
  simp [List.find?]

theorem lookupPairs_setRec_other (l : List (Str × CacheRec)) (d x : Str) (r : CacheRec)
    (h : x ≠ d) : lookupPairs (setRec l d r) x = lookupPairs l x := by
  unfold lookupPairs setRec
  rw [List.find?_append]
  have h2 : List.find? (fun p => decide (p.1 = x)) [(d, r)] = none := by
    simp [List.find?, Ne.symm h]
  rw [h2]
  have h3 : List.find? (fun p => decide (p.1 = x)) (l.filter fun p => !decide (p.1 = d)) =
      List.find? (fun p => decide (p.1 = x)) l := by
    induction l with
    | nil => rfl
    | cons y ys ih =>
      by_cases hy : y.1 = d
      · have hyx : ¬ (y.1 = x) := by rw [hy]; exact Ne.symm h
        rw [List.filter_cons_of_neg (by simp [hy])]
        rw [ih, List.find?_cons_of_neg _ (by simp [hyx])]
      · rw [List.filter_cons_of_pos (by simp [hy])]
        by_cases hyx : y.1 = x
        · rw [List.find?_cons_of_pos _ (by simp [hyx]),
            List.find?_cons_of_pos _ (by simp [hyx])]
        · rw [List.find?_cons_of_neg _ (by simp [hyx]),
            List.find?_cons_of_neg _ (by simp [hyx]), ih]
  rw [h3]
  cases List.find? (fun p => decide (p.1 = x)) l <;> rfl

/-- C10: for every input document, the entry returned by `fromMarkdown`
carries schema version 1 (the current version), whatever schema value the
document's metadata block declares: `migrateEntry` unconditionally stamps
the entry's schema field. -/
theorem c10_schema_stamped (doc : Str) :
    (fromMarkdown doc).schema = some (JVal.num 1) := by
  rfl

/-- C9: `deleteEntry` removes the date's record from the entries map and
the date from the index, but leaves the pending queue exactly as it was;
in particular a queued date stays queued after its deletion. -/
theorem c9_delete_frame (st : StoreState) (d : Str) :
    lookupRec (stDeleteEntry st d) d = none ∧
    d ∉ (stDeleteEntry st d).index ∧
    (stDeleteEntry st d).pending = st.pending := by
  refine ⟨?_, ?_, rfl⟩
  · show lookupPairs (st.entries.filter fun p => !decide (p.1 = d)) d = none
    unfold lookupPairs
    rw [find?_filterOut_none]
    rfl
  · show d ∉ st.index.filter fun x => !decide (x = d)
    intro hmem
    have := (List.mem_filter.mp hmem).2
    simp at this

/-- C6: on every call and from every reachable module state, `getPage`
returns a page within `[1, totalPages]`, at least one total page even
when the filtered set is empty, `hasPrev` and `hasNext` agreeing with the
returned page number, and stores the clamped page back into the module
state. -/
theorem c6_pagination_bounds (store : StoreState) (st : IdxState) :
    1 ≤ (getPage store st).1.page ∧
    (getPage store st).1.page ≤ (getPage store st).1.totalPages ∧
    1 ≤ (getPage store st).1.totalPages ∧
    ((getPage store st).1.hasPrev = true ↔ 1 < (getPage store st).1.page) ∧
    ((getPage store st).1.hasNext = true ↔
      (getPage store st).1.page < (getPage store st).1.totalPages) ∧
    (getPage store st).2.currentPage = (getPage store st).1.page := by
  unfold getPage
  refine ⟨?_, ?_, ?_, ?_, ?_, rfl⟩ <;> simp only [decide_eq_true_eq] <;> omega

/-- C5: the retry wrapper rethrows a 401/403/404 failure immediately — no
backoff sleep, no further attempt — whatever attempt it occurs on, and
retries every other failure with a backoff delay that doubles on each
attempt (1000ms, 2000ms, 4000ms), there being exactly 3 attempts, after
which the last failure is surfaced. -/
theorem c5_retry_policy :
    (∀ (α : Type) (fn : Nat → Except JsError α) (k : Nat) (e : JsError),
      k < 3 →
      (∀ i, i < k → ∃ ei, fn i = .error ei ∧ authStatus ei.status = false) →
      fn k = .error e → authStatus e.status = true →
      withRetry fn 3 = (.error e, (List.range k).map fun i => 1000 * 2 ^ i)) ∧
    (∀ (α : Type) (fn : Nat → Except JsError α) (es : Nat → JsError),
      (∀ i, i < 3 → fn i = .error (es i) ∧ authStatus (es i).status = false) →
      withRetry fn 3 = (.error (es 2), [1000, 2000, 4000])) := by
  constructor
  · intro α fn k e hk hpre hke hauth
    interval_cases k
    · unfold withRetry withRetryGo
      rw [hke]
      dsimp only
      rw [if_pos hauth]
      simp
    · obtain ⟨e0, h0, ha0⟩ := hpre 0 (by norm_num)
      unfold withRetry withRetryGo
      rw [h0]
      dsimp only
      rw [if_neg (by simp [ha0])]
      unfold withRetryGo
      rw [hke]
      dsimp only
      rw [if_pos hauth]
      simp
      decide
    · obtain ⟨e0, h0, ha0⟩ := hpre 0 (by norm_num)
      obtain ⟨e1, h1, ha1⟩ := hpre 1 (by norm_num)
      unfold withRetry withRetryGo
      rw [h0]
      dsimp only
      rw [if_neg (by simp [ha0])]
      unfold withRetryGo
      rw [h1]
      dsimp only
      rw [if_neg (by simp [ha1])]
      unfold withRetryGo
      rw [hke]
      dsimp only
      rw [if_pos hauth]
      simp
      norm_num [List.range_succ]
  · intro α fn es h
    obtain ⟨h0, ha0⟩ := h 0 (by norm_num)
    obtain ⟨h1, ha1⟩ := h 1 (by norm_num)
    obtain ⟨h2, ha2⟩ := h 2 (by norm_num)
    unfold withRetry withRetryGo
    rw [h0]
    dsimp only
    rw [if_neg (by simp [ha0])]
    unfold withRetryGo
    rw [h1]
    dsimp only
    rw [if_neg (by simp [ha1])]
    unfold withRetryGo
    rw [h2]
    dsimp only
    rw [if_neg (by simp [ha2])]
    unfold withRetryGo
    norm_num

theorem c5_retry_policy_witness :
    withRetry (fun _ => (.error ⟨some 500, lit "server error"⟩ : Except JsError Unit)) 3 =
      (.error ⟨some 500, lit "server error"⟩, [1000, 2000, 4000]) :=
  c5_retry_policy.2 Unit (fun _ => .error ⟨some 500, lit "server error"⟩)
    (fun _ => ⟨some 500, lit "server error"⟩)
    (fun _ _ => ⟨rfl, by show authStatus (some 500) = false; decide⟩)

/-- C2 (amended): a remote write conditioned on a stale version token
never succeeds silently — it always surfaces the Conflict error, whose
409 status and message are distinct from every other write failure; the
retry wrapper, however, treats 409 like any other non-401/403/404
failure, so the Conflict error surfaces only after the 3 attempts are
exhausted (with backoff slept between them) rather than being rethrown
without retry. -/
theorem c2_conflict_surfaced :
    (∀ (cur : Str) (supplied : Option Str) (newSha : Str),
      supplied ≠ some cur →
      writeWithToken cur supplied newSha =
        .error ⟨some 409, lit "Conflict: file was modified externally"⟩) ∧
    (∀ s : Int, httpOk s = false → s ≠ 409 →
      putFileErr s ≠ ⟨some 409, lit "Conflict: file was modified externally"⟩) ∧
    (∀ e : JsError, authStatus e.status = false →
      withRetry (fun _ => (.error e : Except JsError Str)) 3 =
        (.error e, [1000, 2000, 4000])) := by
  refine ⟨?_, ?_, ?_⟩
  · intro cur supplied newSha hst
    unfold writeWithToken remotePutStatus
    rw [if_neg hst]
    unfold putFile
    rw [if_neg (by decide)]
    congr 1
  · intro s hok h409
    unfold putFileErr
    rw [if_neg h409]
    intro h
    have := congrArg JsError.message h
    simp [lit] at this
  · intro e hna
    unfold withRetry withRetryGo
    dsimp only
    rw [if_neg (by simp [hna])]
    unfold withRetryGo
    dsimp only
    rw [if_neg (by simp [hna])]
    unfold withRetryGo
    dsimp only
    rw [if_neg (by simp [hna])]
    unfold withRetryGo
    norm_num

theorem c2_conflict_surfaced_witness :
    writeWithToken (lit "abc123") (some (lit "stale")) (lit "new456") =
      .error ⟨some 409, lit "Conflict: file was modified externally"⟩ ∧
    putFileErr 500 ≠ ⟨some 409, lit "Conflict: file was modified externally"⟩ ∧
    withRetry (fun _ =>
        (.error ⟨some 409, lit "Conflict: file was modified externally"⟩ :
          Except JsError Str)) 3 =
      (.error ⟨some 409, lit "Conflict: file was modified externally"⟩,
        [1000, 2000, 4000]) :=
  ⟨c2_conflict_surfaced.1 (lit "abc123") (some (lit "stale")) (lit "new456")
      (by decide),
   c2_conflict_surfaced.2.1 500 (by decide) (by decide),
   c2_conflict_surfaced.2.2 ⟨some 409, lit "Conflict: file was modified externally"⟩
      (by decide)⟩

/-- C2 (counterexample to the claim as stated): the retry wrapper DOES
automatically retry a Conflict failure.  Running it over an operation
that always answers 409 ends with the error produced by attempt index 2 —
the operation was re-invoked after the first conflict — and with two
backoff sleeps in between (the trailing 4000ms sleep follows the last
attempt), contradicting "that Conflict is not automatically retried". -/
theorem c2_conflict_retried_counterexample :
    withRetry conflictProbe 3 = (.error ⟨some 409, lit "2"⟩, [1000, 2000, 4000]) ∧
    (withRetry conflictProbe 3).2 ≠ [] := by
  have h : withRetry conflictProbe 3 =
      (.error ⟨some 409, lit "2"⟩, [1000, 2000, 4000]) := rfl
  exact ⟨h, by rw [h]; simp⟩

theorem syncStep_inv (s : SyncMachine) (ev : SyncEv) (h : syncInv s) :
    syncInv (syncStep s ev) := by
  obtain ⟨store, ip, drains⟩ := s
  obtain ⟨hflag, hlen⟩ := h
  cases ev with
  | invoke online =>
    unfold syncStep
    dsimp only
    by_cases hip : (ip || !online) = true
    · rw [if_pos hip]
      exact ⟨hflag, hlen⟩
    · rw [if_neg hip]
      by_cases hpend : store.pending.isEmpty = true
      · rw [if_pos hpend]
        exact ⟨hflag, hlen⟩
      · rw [if_neg hpend]
        have hip2 : ip = false := by
          have hsplit : ip = false ∧ online = true := by simpa using hip
          exact hsplit.1
        have hd : drains = [] := hflag hip2
        subst hd
        refine ⟨fun hh => ?_, ?_⟩
        · cases hh
        · simp
  | drainStep r =>
    unfold syncStep
    dsimp only
    rcases drains with _ | ⟨d0, others⟩
    · exact ⟨fun _ => rfl, by simp⟩
    · rcases d0 with _ | ⟨d, rest⟩
      · dsimp only
        have h0 : others = [] := by simpa using hlen
        subst h0
        exact ⟨fun _ => rfl, by simp⟩
      · dsimp only
        have h0 : others = [] := by simpa using hlen
        subst h0
        refine ⟨fun hh => ?_, ?_⟩
        · exfalso
          have hne := hflag hh
          simp at hne
        · simp

theorem syncRun_inv (evs : List SyncEv) (s : SyncMachine) (h : syncInv s) :
    syncInv (syncRun s evs) := by
  induction evs generalizing s with
  | nil => exact h
  | cons ev rest ih => exact ih (syncStep s ev) (syncStep_inv s ev h)

/-- C8: in every interleaving of triggers reachable from an idle
coordinator, at most one drain of the pending queue is alive at any
point, and invoking `syncPendingEntries` while a drain is in flight
leaves the machine completely unchanged (the in-flight boolean guard
makes re-entry a no-op). -/
theorem c8_single_drain :
    (∀ (st : StoreState) (evs : List SyncEv),
      (syncRun (syncInit st) evs).drains.length ≤ 1) ∧
    (∀ (s : SyncMachine) (online : Bool), s.inProgress = true →
      syncStep s (.invoke online) = s) := by
  constructor
  · intro st evs
    exact (syncRun_inv evs (syncInit st) ⟨fun _ => rfl, by simp [syncInit]⟩).2
  · intro s online hip
    unfold syncStep
    dsimp only
    rw [if_pos (by simp [hip])]

theorem c8_single_drain_witness :
    syncStep ⟨emptyStore, true, [[lit "2025-12-25"]]⟩ (.invoke true) =
      ⟨emptyStore, true, [[lit "2025-12-25"]]⟩ :=
  c8_single_drain.2 ⟨emptyStore, true, [[lit "2025-12-25"]]⟩ true rfl

theorem scoreFieldErrs_eq (field : Str) (v : Option JVal) :
    scoreFieldErrs field v =
      if scoreViolationB v then [scoreMsg field] else [] := by
  rcases v with _ | jv
  · rfl
  · unfold scoreFieldErrs scoreViolationB
    rcases h : jsToNumber jv with _ | n
    · simp [h]
    · simp [h]

theorem scoreViolationB_iff (v : Option JVal) :
    scoreViolationB v = true ↔ scoreViolation v := by
  rcases v with _ | jv
  · simp [scoreViolationB, scoreViolation]
  · unfold scoreViolationB scoreViolation
    rcases h : jsToNumber jv with _ | n
    · simp [h]
    · simp [h]

theorem nwdViolationB_iff (e : Entry) :
    nwdViolationB e.net_worth_delta = true ↔ nwdViolation e := by
  unfold nwdViolationB nwdViolation
  rcases hd : e.net_worth_delta with _ | jv
  · simp [hd]
  · rcases h : jsToNumber jv with _ | n
    · simp [hd, h]
    · simp [hd, h]

theorem nwdFieldErrs_eq (v : Option JVal) :
    nwdFieldErrs v = if nwdViolationB v then [nwdMsg] else [] := by
  rcases v with _ | jv
  · rfl
  · unfold nwdFieldErrs nwdViolationB
    rcases h : jsToNumber jv with _ | n
    · simp [h]
    · simp [h]

theorem dateOkB_iff (e : Entry) :
    (truthyO e.date && jsDateRe (jvalToStrO e.date)) = true ↔ dateWellFormed e := by
  unfold dateWellFormed
  rcases hd : e.date with _ | jv
  · simp [truthyO]
  · rcases jv with n | s
    · simp [truthyO, truthyJ, jvalToStrO, jvalToStr, jsDateRe_ratToChars]
    · simp only [truthyO, truthyJ, jvalToStrO, jvalToStr, Bool.and_eq_true,
        decide_eq_true_eq]
      constructor
      · rintro ⟨hne, hre⟩
        exact ⟨s, rfl, hre⟩
      · rintro ⟨s', hs', hre⟩
        have : s' = s := by
          have := (Option.some.injEq _ _).mp hs'
          exact (JVal.str.injEq _ _).mp this.symm
        subst this
        exact ⟨dateRe_ne_nil s' hre, hre⟩

theorem mem_errSeg (m msg : Str) (b : Bool) :
    m ∈ (if b then [msg] else []) ↔ (b = true ∧ m = msg) := by
  cases b <;> simp

theorem mem_errSegRev (m msg : Str) (b : Bool) :
    m ∈ (if b then [] else [msg]) ↔ (b = false ∧ m = msg) := by
  cases b <;> simp

theorem validateEntry_errs (e : Entry) :
    (validateEntry e).2 =
      (if (truthyO e.date && jsDateRe (jvalToStrO e.date)) then [] else [dateMsg]) ++
      (if scoreViolationB e.score then [scoreMsg (lit "score")] else []) ++
      (if scoreViolationB e.discipline then [scoreMsg (lit "discipline")] else []) ++
      (if scoreViolationB e.focus then [scoreMsg (lit "focus")] else []) ++
      (if scoreViolationB e.energy then [scoreMsg (lit "energy")] else []) ++
      (if scoreViolationB e.mood then [scoreMsg (lit "mood")] else []) ++
      (if nwdViolationB e.net_worth_delta then [nwdMsg] else []) := by
  unfold validateEntry
  dsimp only
  rw [scoreFieldErrs_eq, scoreFieldErrs_eq, scoreFieldErrs_eq, scoreFieldErrs_eq,
    scoreFieldErrs_eq, nwdFieldErrs_eq]

/-- C4: `validateEntry` accepts an entry exactly when its date is a
well-formed `YYYY-MM-DD` string, every present score field is numeric and
within `[0, 10]`, and `net_worth_delta`, when present, is numeric; and
the error list contains the message naming a field exactly when that
field is in violation, so every violation is reported, not only the
first. -/
theorem c4_validate_characterization (e : Entry) :
    ((validateEntry e).1 = true ↔
      (dateWellFormed e ∧ ¬ scoreViolation e.score ∧ ¬ scoreViolation e.discipline ∧
        ¬ scoreViolation e.focus ∧ ¬ scoreViolation e.energy ∧
        ¬ scoreViolation e.mood ∧ ¬ nwdViolation e)) ∧
    (dateMsg ∈ (validateEntry e).2 ↔ ¬ dateWellFormed e) ∧
    (scoreMsg (lit "score") ∈ (validateEntry e).2 ↔ scoreViolation e.score) ∧
    (scoreMsg (lit "discipline") ∈ (validateEntry e).2 ↔ scoreViolation e.discipline) ∧
    (scoreMsg (lit "focus") ∈ (validateEntry e).2 ↔ scoreViolation e.focus) ∧
    (scoreMsg (lit "energy") ∈ (validateEntry e).2 ↔ scoreViolation e.energy) ∧
    (scoreMsg (lit "mood") ∈ (validateEntry e).2 ↔ scoreViolation e.mood) ∧
    (nwdMsg ∈ (validateEntry e).2 ↔ nwdViolation e) := by
  have h1 : (validateEntry e).1 = (validateEntry e).2.isEmpty := by
    unfold validateEntry
    rfl
  have herrs := validateEntry_errs e
  constructor
  · rw [h1, herrs]
    simp only [List.isEmpty_iff, List.append_eq_nil]
    constructor
    · rintro ⟨⟨⟨⟨⟨⟨hd, hs1⟩, hs2⟩, hs3⟩, hs4⟩, hs5⟩, hn⟩
      refine ⟨?_, ?_, ?_, ?_, ?_, ?_, ?_⟩
      · rw [← dateOkB_iff]
        by_cases hb : (truthyO e.date && jsDateRe (jvalToStrO e.date)) = true
        · exact hb
        · rw [if_neg hb] at hd; cases hd
      · rw [← scoreViolationB_iff]
        by_cases hb : scoreViolationB e.score = true
        · rw [if_pos hb] at hs1; cases hs1
        · simp [hb]
      · rw [← scoreViolationB_iff]
        by_cases hb : scoreViolationB e.discipline = true
        · rw [if_pos hb] at hs2; cases hs2
        · simp [hb]
      · rw [← scoreViolationB_iff]
        by_cases hb : scoreViolationB e.focus = true
        · rw [if_pos hb] at hs3; cases hs3
        · simp [hb]
      · rw [← scoreViolationB_iff]
        by_cases hb : scoreViolationB e.energy = true
        · rw [if_pos hb] at hs4; cases hs4
        · simp [hb]
      · rw [← scoreViolationB_iff]
        by_cases hb : scoreViolationB e.mood = true
        · rw [if_pos hb] at hs5; cases hs5
        · simp [hb]
      · rw [← nwdViolationB_iff]
        by_cases hb : nwdViolationB e.net_worth_delta = true
        · rw [if_pos hb] at hn; cases hn
        · simp [hb]
    · rintro ⟨hd, hs1, hs2, hs3, hs4, hs5, hn⟩
      rw [← dateOkB_iff] at hd
      rw [← scoreViolationB_iff] at hs1 hs2 hs3 hs4 hs5
      rw [← nwdViolationB_iff] at hn
      simp only [Bool.not_eq_true] at hs1 hs2 hs3 hs4 hs5 hn
      rw [if_pos hd, if_neg (by simp [hs1]), if_neg (by simp [hs2]),
        if_neg (by simp [hs3]), if_neg (by simp [hs4]), if_neg (by simp [hs5]),
        if_neg (by simp [hn])]
      simp
  · rw [herrs]
    simp only [List.mem_append, mem_errSeg, mem_errSegRev]
    refine ⟨?_, ?_, ?_, ?_, ?_, ?_, ?_⟩
    · rw [← dateOkB_iff]
      constructor
      · rintro ((((((h | h) | h) | h) | h) | h) | h)
        · simp [h.1]
        · exact absurd h.2 (by decide)
        · exact absurd h.2 (by decide)
        · exact absurd h.2 (by decide)
        · exact absurd h.2 (by decide)
        · exact absurd h.2 (by decide)
        · exact absurd h.2 (by decide)
      · intro hd
        refine Or.inl (Or.inl (Or.inl (Or.inl (Or.inl (Or.inl ?_)))))
        exact ⟨by simpa using hd, by trivial⟩
    · rw [← scoreViolationB_iff]
      constructor
      · rintro ((((((h | h) | h) | h) | h) | h) | h) <;>
          first
          | exact h.1
          | exact absurd h.2 (by decide)
      · intro hb
        exact Or.inl (Or.inl (Or.inl (Or.inl (Or.inl (Or.inr ⟨hb, by trivial⟩)))))
    · rw [← scoreViolationB_iff]
      constructor
      · rintro ((((((h | h) | h) | h) | h) | h) | h) <;>
          first
          | exact h.1
          | exact absurd h.2 (by decide)
      · intro hb
        exact Or.inl (Or.inl (Or.inl (Or.inl (Or.inr ⟨hb, by trivial⟩))))
    · rw [← scoreViolationB_iff]
      constructor
      · rintro ((((((h | h) | h) | h) | h) | h) | h) <;>
          first
          | exact h.1
          | exact absurd h.2 (by decide)
      · intro hb
        exact Or.inl (Or.inl (Or.inl (Or.inr ⟨hb, by trivial⟩)))
    · rw [← scoreViolationB_iff]
      constructor
      · rintro ((((((h | h) | h) | h) | h) | h) | h) <;>
          first
          | exact h.1
          | exact absurd h.2 (by decide)
      · intro hb
        exact Or.inl (Or.inl (Or.inr ⟨hb, by trivial⟩))
    · rw [← scoreViolationB_iff]
      constructor
      · rintro ((((((h | h) | h) | h) | h) | h) | h) <;>
          first
          | exact h.1
          | exact absurd h.2 (by decide)
      · intro hb
        exact Or.inl (Or.inr ⟨hb, by trivial⟩)
    · rw [← nwdViolationB_iff]
      constructor
      · rintro ((((((h | h) | h) | h) | h) | h) | h) <;>
          first
          | exact h.1
          | exact absurd h.2 (by decide)
      · intro hb
        exact Or.inr ⟨hb, by trivial⟩

theorem lookupRec_stUpdateIndex (st : StoreState) (d x : Str) :
    lookupRec (stUpdateIndex st d) x = lookupRec st x := by
  unfold stUpdateIndex lookupRec
  split <;> rfl

theorem pending_stUpdateIndex (st : StoreState) (d : Str) :
    (stUpdateIndex st d).pending = st.pending := by
  unfold stUpdateIndex
  split <;> rfl

theorem lookupRec_stSaveEntry (st : StoreState) (d : Str) (r : CacheRec) (x : Str) :
    lookupRec (stSaveEntry st d r) x =
      if x = d then some r else lookupRec st x := by
  unfold stSaveEntry
  rw [lookupRec_stUpdateIndex]
  by_cases hx : x = d
  · subst hx
    rw [if_pos rfl]
    exact lookupPairs_setRec_same st.entries x r
  · rw [if_neg hx]
    exact lookupPairs_setRec_other st.entries d x r hx

theorem pending_stSaveEntry (st : StoreState) (d : Str) (r : CacheRec) :
    (stSaveEntry st d r).pending = st.pending := by
  unfold stSaveEntry
  rw [pending_stUpdateIndex]

theorem mem_stAddPending (st : StoreState) (d x : Str) :
    x ∈ (stAddPending st d).pending ↔ (x ∈ st.pending ∨ x = d) := by
  unfold stAddPending
  split
  · rename_i hmem
    constructor
    · exact Or.inl
    · rintro (h | rfl)
      · exact h
      · exact hmem
  · simp

theorem mem_stRemovePending (st : StoreState) (d x : Str) :
    x ∈ (stRemovePending st d).pending ↔ (x ∈ st.pending ∧ x ≠ d) := by
  unfold stRemovePending
  simp [List.mem_filter]

theorem lookupRec_stMarkSynced (st : StoreState) (d sha x : Str) :
    lookupRec (stMarkSynced st d sha) x =
      if x = d then
        (lookupRec st d).map fun cr => { cr with synced := true, sha := some sha }
      else lookupRec st x := by
  unfold stMarkSynced
  rcases h : lookupRec st d with _ | cr
  · dsimp only
    by_cases hx : x = d
    · subst hx
      rw [if_pos rfl]
      exact h
    · rw [if_neg hx]
      rfl
  · dsimp only
    by_cases hx : x = d
    · subst hx
      rw [if_pos rfl]
      exact lookupPairs_setRec_same st.entries x
        { cr with synced := true, sha := some sha }
    · rw [if_neg hx]
      exact lookupPairs_setRec_other st.entries d x
        { cr with synced := true, sha := some sha } hx

theorem pending_stMarkSynced (st : StoreState) (d sha x : Str) :
    x ∈ (stMarkSynced st d sha).pending ↔ (x ∈ st.pending ∧ x ≠ d) := by
  unfold stMarkSynced
  rcases h : lookupRec st d with _ | cr
  · exact mem_stRemovePending st d x
  · dsimp only
    exact mem_stRemovePending _ d x

theorem lookupRec_stMarkPending (st : StoreState) (d x : Str) :
    lookupRec (stMarkPending st d) x =
      if x = d then (lookupRec st d).map fun cr => { cr with synced := false }
      else lookupRec st x := by
  unfold stMarkPending
  rcases h : lookupRec st d with _ | cr
  · dsimp only
    by_cases hx : x = d
    · subst hx
      rw [if_pos rfl]
      unfold stAddPending
      split
      · exact h
      · exact h
    · rw [if_neg hx]
      unfold stAddPending
      split <;> rfl
  · dsimp only
    by_cases hx : x = d
    · subst hx
      rw [if_pos rfl]
      unfold stAddPending
      split
      · exact lookupPairs_setRec_same st.entries x { cr with synced := false }
      · exact lookupPairs_setRec_same st.entries x { cr with synced := false }
    · rw [if_neg hx]
      unfold stAddPending
      split
      · exact lookupPairs_setRec_other st.entries d x { cr with synced := false } hx
      · exact lookupPairs_setRec_other st.entries d x { cr with synced := false } hx

theorem pending_stMarkPending (st : StoreState) (d x : Str) :
    x ∈ (stMarkPending st d).pending ↔ (x ∈ st.pending ∨ x = d) := by
  unfold stMarkPending
  rcases h : lookupRec st d with _ | cr
  · exact mem_stAddPending st d x
  · dsimp only
    exact mem_stAddPending _ d x

theorem toMarkdown_head (e : Entry) :
    toMarkdown e = '-' :: '-' :: '-' :: '\n' :: joinLines (tmLines e).tail := rfl

theorem toMarkdown_ne_nil (e : Entry) : toMarkdown e ≠ [] := by
  rw [toMarkdown_head]
  simp

theorem inv_markPending_general (st2 st : StoreState) (d : Str) (newRec : CacheRec)
    (hlook : ∀ x, lookupRec st2 x = if x = d then some newRec else lookupRec st x)
    (hpend : st2.pending = st.pending)
    (h : queueConsistent st) : queueConsistent (stMarkPending st2 d) := by
  intro x
  rw [pending_stMarkPending, lookupRec_stMarkPending, hpend]
  by_cases hxd : x = d
  · subst hxd
    rw [if_pos rfl, hlook, if_pos rfl]
    constructor
    · intro _
      exact ⟨{ newRec with synced := false }, rfl, rfl⟩
    · intro _
      exact Or.inr rfl
  · rw [if_neg hxd, hlook, if_neg hxd]
    constructor
    · rintro (hp | heq)
      · exact (h x).mp hp
      · exact absurd heq hxd
    · intro hex
      exact Or.inl ((h x).mpr hex)

theorem inv_markSynced_general (st2 st : StoreState) (d sha : Str) (newRec : CacheRec)
    (hlook : ∀ x, lookupRec st2 x = if x = d then some newRec else lookupRec st x)
    (hpend : st2.pending = st.pending)
    (h : queueConsistent st) : queueConsistent (stMarkSynced st2 d sha) := by
  intro x
  rw [pending_stMarkSynced, lookupRec_stMarkSynced, hpend]
  by_cases hxd : x = d
  · subst hxd
    rw [if_pos rfl, hlook, if_pos rfl]
    constructor
    · rintro ⟨_, hne⟩
      exact absurd rfl hne
    · rintro ⟨cr, hcr, hsy⟩
      have hc : { newRec with synced := true, sha := some sha } = cr :=
        Option.some.inj hcr
      rw [← hc] at hsy
      simp at hsy
  · rw [if_neg hxd, hlook, if_neg hxd]
    constructor
    · rintro ⟨hp, _⟩
      exact (h x).mp hp
    · intro hex
      exact ⟨(h x).mpr hex, hxd⟩

theorem inv_appSyncEntry (st : StoreState) (d : Str) (r : SyncResult)
    (h : queueConsistent st) : queueConsistent (appSyncEntry st d r) := by
  unfold appSyncEntry
  rcases hl : lookupRec st d with _ | cr
  · exact h
  · dsimp only
    have hlook : ∀ x, lookupRec st x = if x = d then some cr else lookupRec st x := by
      intro x
      by_cases hxd : x = d
      · subst hxd
        rw [if_pos rfl]
        exact hl
      · rw [if_neg hxd]
    by_cases hmd : cr.markdown = []
    · rw [if_pos hmd]
      exact h
    · rw [if_neg hmd]
      rcases r with sha | _
      · exact inv_markSynced_general st st d sha cr hlook rfl h
      · exact inv_markPending_general st st d cr hlook rfl h

theorem inv_appSaveCurrent (st : StoreState) (d : Str) (e : Entry) (online : Bool)
    (r : SyncResult) (h : queueConsistent st) :
    queueConsistent (appSaveCurrent st d e online r) := by
  unfold appSaveCurrent
  by_cases hv : (validateEntry e).1 = false
  · rw [if_pos hv]
    exact h
  · rw [if_neg hv]
    dsimp only
    have hlook : ∀ x, lookupRec (stUpdateIndex (stSaveEntry st d (savedRec st d e)) d) x =
        if x = d then some (savedRec st d e) else lookupRec st x := by
      intro x
      rw [lookupRec_stUpdateIndex, lookupRec_stSaveEntry]
    have hpend : (stUpdateIndex (stSaveEntry st d (savedRec st d e)) d).pending =
        st.pending := by
      rw [pending_stUpdateIndex, pending_stSaveEntry]
    cases online
    · rw [if_neg (by simp)]
      exact inv_markPending_general _ st d _ hlook hpend h
    · rw [if_pos rfl]
      unfold appSyncEntry
      have hl2 : lookupRec (stUpdateIndex (stSaveEntry st d (savedRec st d e)) d) d =
          some (savedRec st d e) := by
        rw [hlook, if_pos rfl]
      rw [hl2]
      dsimp only
      rw [if_neg (show ¬ ((savedRec st d e).markdown = []) from toMarkdown_ne_nil e)]
      rcases r with sha | _
      · exact inv_markSynced_general _ st d sha _ hlook hpend h
      · exact inv_markPending_general _ st d _ hlook hpend h

theorem inv_drainGo (ds : List Str) (st : StoreState) (res : Str → SyncResult)
    (h : queueConsistent st) : queueConsistent (drainGo st ds res) := by
  induction ds generalizing st with
  | nil => exact h
  | cons d rest ih => exact ih (appSyncEntry st d (res d)) (inv_appSyncEntry st d (res d) h)

theorem inv_appApply (st : StoreState) (op : AppOp) (h : queueConsistent st) :
    queueConsistent (appApply st op) := by
  cases op with
  | save d e online r => exact inv_appSaveCurrent st d e online r h
  | syncOne d r => exact inv_appSyncEntry st d r h
  | drain res => exact inv_drainGo st.pending st res h

theorem appRun_preserves (ops : List AppOp) (st : StoreState)
    (h : queueConsistent st) : queueConsistent (appRun st ops) := by
  induction ops generalizing st with
  | nil => exact h
  | cons op rest ih => exact ih (appApply st op) (inv_appApply st op h)

/-- C3: starting from the empty store, after every sequence of save and
sync operations a date is in the pending queue exactly when its cache
record exists with `synced = false` — every save/sync transaction leaves
queue membership and sync state in agreement. -/
theorem c3_queue_state_consistency (ops : List AppOp) :
    queueConsistent (appRun emptyStore ops) := by
  refine appRun_preserves ops emptyStore ?_
  intro x
  constructor
  · intro hx
    simp [emptyStore] at hx
  · rintro ⟨cr, hcr, _⟩
    simp [lookupRec, lookupPairs, emptyStore] at hcr

theorem syncedAt_importSave (st : StoreState) (d : Str) (rec : CacheRec)
    (hrec : rec.synced = false) (hd : syncedAt st d = false) :
    ∀ x, syncedAt (stUpdateIndex (stSaveEntry st d rec) d) x = syncedAt st x := by
  intro x
  unfold syncedAt
  rw [lookupRec_stUpdateIndex, lookupRec_stSaveEntry]
  by_cases hx : x = d
  · subst hx
    rw [if_pos rfl]
    unfold syncedAt at hd
    rcases hl : lookupRec st x with _ | cr
    · dsimp only
      exact hrec
    · rw [hl] at hd
      dsimp only at hd ⊢
      rw [hrec, hd]
  · rw [if_neg hx]

theorem importGo_spec (data : List (Str × ImportRec)) :
    ∀ (st : StoreState) (imp skip : Nat),
      (∀ x cr, lookupRec st x = some cr → cr.synced = true →
        lookupRec (importGo st imp skip data).1 x = some cr) ∧
      (∀ x, jsDateRe x = false →
        lookupRec (importGo st imp skip data).1 x = lookupRec st x) ∧
      (importGo st imp skip data).2.2 =
        skip + (data.filter fun p => !jsDateRe p.1 || syncedAt st p.1).length ∧
      (importGo st imp skip data).2.1 + (importGo st imp skip data).2.2 =
        imp + skip + data.length := by
  induction data with
  | nil =>
    intro st imp skip
    exact ⟨fun x cr hx _ => hx, fun x _ => rfl, by simp [importGo], by
      simp [importGo]⟩
  | cons item rest ih =>
    intro st imp skip
    obtain ⟨d, r⟩ := item
    by_cases hre : jsDateRe d = false
    · -- malformed shape: skipped
      have hstep : importGo st imp skip ((d, r) :: rest) =
          importGo st imp (skip + 1) rest := by
        simp only [importGo]
        rw [if_pos hre]
      obtain ⟨ih1, ih2, ih3, ih4⟩ := ih st imp (skip + 1)
      rw [hstep]
      refine ⟨ih1, ih2, ?_, ?_⟩
      · rw [ih3, List.filter_cons_of_pos (by simp [hre])]
        simp
        omega
      · rw [ih4, List.length_cons]
        omega
    · have hre' : jsDateRe d = true := by
        cases hb : jsDateRe d
        · exact absurd hb hre
        · rfl
      rcases hl : lookupRec st d with _ | ex
      · -- no existing record: imported
        have hstep : importGo st imp skip ((d, r) :: rest) =
            importGo (stUpdateIndex (stSaveEntry st d
              ⟨r.markdown, importShaOr r.sha, false⟩) d) (imp + 1) skip rest := by
          simp only [importGo]
          rw [if_neg (by simp [hre']), hl]
        have hsyncd : syncedAt st d = false := by
          unfold syncedAt
          rw [hl]
        have hpres := syncedAt_importSave st d ⟨r.markdown, importShaOr r.sha, false⟩
          rfl hsyncd
        obtain ⟨ih1, ih2, ih3, ih4⟩ := ih (stUpdateIndex (stSaveEntry st d
          ⟨r.markdown, importShaOr r.sha, false⟩) d) (imp + 1) skip
        rw [hstep]
        refine ⟨?_, ?_, ?_, ?_⟩
        · intro x cr hx hs
          have hxd : x ≠ d := by
            intro hcontra
            subst hcontra
            rw [hl] at hx
            cases hx
          refine ih1 x cr ?_ hs
          rw [lookupRec_stUpdateIndex, lookupRec_stSaveEntry, if_neg hxd]
          exact hx
        · intro x hx
          have hxd : x ≠ d := by
            intro hcontra
            subst hcontra
            rw [hre'] at hx
            cases hx
          rw [ih2 x hx, lookupRec_stUpdateIndex, lookupRec_stSaveEntry, if_neg hxd]
        · rw [ih3, List.filter_cons_of_neg (by simp [hre', hsyncd]),
            List.filter_congr (fun p _ => by rw [hpres p.1])]
        · rw [ih4, List.length_cons]
          omega
      · by_cases hsy : ex.synced = true
        · -- synced record: skipped, record untouched
          have hstep : importGo st imp skip ((d, r) :: rest) =
              importGo st imp (skip + 1) rest := by
            simp only [importGo]
            rw [if_neg (by simp [hre']), hl]
            dsimp only
            rw [if_pos hsy]
          obtain ⟨ih1, ih2, ih3, ih4⟩ := ih st imp (skip + 1)
          rw [hstep]
          refine ⟨ih1, ih2, ?_, ?_⟩
          · rw [ih3, List.filter_cons_of_pos (by
              simp only [Bool.or_eq_true]
              right
              unfold syncedAt
              rw [hl]
              exact hsy)]
            simp
            omega
          · rw [ih4, List.length_cons]
            omega
        · -- unsynced record: overwritten, imported
          have hsy' : ex.synced = false := by
            cases hb : ex.synced
            · rfl
            · exact absurd hb hsy
          have hstep : importGo st imp skip ((d, r) :: rest) =
              importGo (stUpdateIndex (stSaveEntry st d
                ⟨r.markdown, importShaOr r.sha, false⟩) d) (imp + 1) skip rest := by
            simp only [importGo]
            rw [if_neg (by simp [hre']), hl]
            dsimp only
            rw [if_neg (by simp [hsy'])]
          have hsyncd : syncedAt st d = false := by
            unfold syncedAt
            rw [hl]
            exact hsy'
          have hpres := syncedAt_importSave st d ⟨r.markdown, importShaOr r.sha, false⟩
            rfl hsyncd
          obtain ⟨ih1, ih2, ih3, ih4⟩ := ih (stUpdateIndex (stSaveEntry st d
            ⟨r.markdown, importShaOr r.sha, false⟩) d) (imp + 1) skip
          rw [hstep]
          refine ⟨?_, ?_, ?_, ?_⟩
          · intro x cr hx hs
            have hxd : x ≠ d := by
              intro hcontra
              subst hcontra
              rw [hl] at hx
              have : ex = cr := Option.some.inj hx
              rw [← this] at hs
              rw [hsy'] at hs
              cases hs
            refine ih1 x cr ?_ hs
            rw [lookupRec_stUpdateIndex, lookupRec_stSaveEntry, if_neg hxd]
            exact hx
          · intro x hx
            have hxd : x ≠ d := by
              intro hcontra
              subst hcontra
              rw [hre'] at hx
              cases hx
            rw [ih2 x hx, lookupRec_stUpdateIndex, lookupRec_stSaveEntry, if_neg hxd]
          · rw [ih3, List.filter_cons_of_neg (by simp [hre', hsyncd]),
              List.filter_congr (fun p _ => by rw [hpres p.1])]
          · rw [ih4, List.length_cons]
            omega

/-- C7 (amended): for every JSON import, a date whose local cache record
is marked `Synced` is never overwritten — its record is untouched and the
item is counted skipped; a date key failing the `YYYY-MM-DD` shape test
is skipped with no cache mutation for that key; `skipped` counts exactly
the items whose key fails the shape test or is locally synced, and every
item is either imported or skipped.  The shape test is textual only, so a
key like `2025-13-40`, though not a calendar date, passes it and is
imported when not locally synced. -/
theorem c7_import_behavior (st : StoreState) (data : List (Str × ImportRec)) :
    (∀ d cr, lookupRec st d = some cr → cr.synced = true →
      lookupRec (importFromJSON st data).1 d = some cr) ∧
    (∀ d, jsDateRe d = false →
      lookupRec (importFromJSON st data).1 d = lookupRec st d) ∧
    (importFromJSON st data).2.2 =
      (data.filter fun p => !jsDateRe p.1 || syncedAt st p.1).length ∧
    (importFromJSON st data).2.1 + (importFromJSON st data).2.2 = data.length := by
  obtain ⟨h1, h2, h3, h4⟩ := importGo_spec data st 0 0
  refine ⟨h1, h2, ?_, ?_⟩
  · unfold importFromJSON
    omega
  · unfold importFromJSON
    omega

theorem c7_import_behavior_witness :
    lookupRec (importFromJSON
        ⟨[(lit "2025-01-01", ⟨lit "kept", some (lit "sha1"), true⟩)], [], []⟩
        [(lit "2025-01-01", ⟨lit "overwrite", none⟩), (lit "bad-date", ⟨lit "x", none⟩)]).1
      (lit "2025-01-01") = some ⟨lit "kept", some (lit "sha1"), true⟩ :=
  (c7_import_behavior
    ⟨[(lit "2025-01-01", ⟨lit "kept", some (lit "sha1"), true⟩)], [], []⟩
    [(lit "2025-01-01", ⟨lit "overwrite", none⟩), (lit "bad-date", ⟨lit "x", none⟩)]).1
    (lit "2025-01-01") ⟨lit "kept", some (lit "sha1"), true⟩ (by decide) rfl

/-- C7 (counterexample to the claim as stated): importing the key
`2025-13-40` — not a valid calendar date, but matching the textual
`\d{4}-\d{2}-\d{2}` shape — into an empty store does NOT skip it: nothing
is counted skipped, the item is imported, and a cache record is written
for that key. -/
theorem c7_import_counterexample :
    (importFromJSON emptyStore [(lit "2025-13-40", ⟨lit "x", none⟩)]).2.2 = 0 ∧
    (importFromJSON emptyStore [(lit "2025-13-40", ⟨lit "x", none⟩)]).2.1 = 1 ∧
    lookupRec (importFromJSON emptyStore [(lit "2025-13-40", ⟨lit "x", none⟩)]).1
      (lit "2025-13-40") = some ⟨lit "x", none, false⟩ := by
  refine ⟨?_, ?_, ?_⟩
  · decide
  · decide
  · decide

theorem PSState_ext (a b : PSState) (h1 : a.curSec = b.curSec)
    (h2 : a.curSub = b.curSub) (h3 : a.buffer = b.buffer) (h4 : a.acc = b.acc) :
    a = b := by
  cases a
  cases b
  dsimp at h1 h2 h3 h4
  rw [h1, h2, h3, h4]

theorem flushPS_curSec (st : PSState) : (flushPS st).curSec = st.curSec := by
  unfold flushPS
  split <;> rfl

theorem flushPS_curSub (st : PSState) : (flushPS st).curSub = st.curSub := by
  unfold flushPS
  split <;> rfl

theorem flushPS_buffer (st : PSState) : (flushPS st).buffer = [] := by
  unfold flushPS
  split <;> rfl

theorem flushPS_of_sec (st : PSState) (n : Nat) (h : st.curSec = some n) :
    flushPS st = { st with
      buffer := []
      acc := st.acc ++ [(secKey n st.curSub, trimStr (joinLines st.buffer))] } := by
  unfold flushPS
  rw [h]

theorem stepPS_content (st : PSState) (l : Str)
    (hm : parseMainHeading? l = none)
    (hs : st.curSec = some 4 → parseSubHeading? l = none) :
    stepPS st l = { st with buffer := st.buffer ++ [l] } := by
  unfold stepPS
  rw [hm]
  dsimp only
  rcases hsub : parseSubHeading? l with _ | c
  · rfl
  · dsimp only
    have hnot : ¬ (st.curSec = some 4) := by
      intro h4
      rw [hs h4] at hsub
      cases hsub
    rw [if_neg hnot]

theorem stepPS_main (st : PSState) (l : Str) (n : Nat)
    (hm : parseMainHeading? l = some n) :
    stepPS st l = { flushPS st with curSec := some n, curSub := none } := by
  unfold stepPS
  rw [hm]

theorem stepPS_sub (st : PSState) (l : Str) (c : Char)
    (hm : parseMainHeading? l = none) (hsub : parseSubHeading? l = some c)
    (h4 : st.curSec = some 4) :
    stepPS st l = { flushPS st with curSub := some c } := by
  unfold stepPS
  rw [hm]
  dsimp only
  rw [hsub]
  dsimp only
  rw [if_pos h4]

theorem foldPS_content (ls : List Str) (st : PSState)
    (hm : ∀ l ∈ ls, parseMainHeading? l = none)
    (hs : st.curSec = some 4 → ∀ l ∈ ls, parseSubHeading? l = none) :
    List.foldl stepPS st ls = { st with buffer := st.buffer ++ ls } := by
  induction ls generalizing st with
  | nil => simp
  | cons l rest ih =>
    rw [List.foldl_cons,
      stepPS_content st l (hm l (List.mem_cons_self _ _))
        (fun h4 => hs h4 l (List.mem_cons_self _ _))]
    rw [ih { st with buffer := st.buffer ++ [l] }
      (fun l' hl' => hm l' (List.mem_cons_of_mem _ hl'))
      (fun h4 l' hl' => hs h4 l' (List.mem_cons_of_mem _ hl'))]
    refine PSState_ext _ _ rfl rfl ?_ rfl
    simp

theorem runSection (st : PSState) (hd : Str) (n : Nat) (T : List Str)
    (hh : parseMainHeading? hd = some n) (hn : n ≠ 4)
    (hT : ∀ l ∈ T, parseMainHeading? l = none) :
    List.foldl stepPS st (hd :: T) =
      ⟨some n, none, T, (flushPS st).acc⟩ := by
  rw [List.foldl_cons, stepPS_main st hd n hh]
  rw [foldPS_content T _ hT
    (fun h4 => absurd (Option.some.inj h4) hn)]
  refine PSState_ext _ _ rfl rfl ?_ rfl
  show (flushPS st).buffer ++ T = T
  rw [flushPS_buffer]
  rfl

theorem runSubsection (st : PSState) (sh : Str) (c : Char) (T : List Str)
    (hm : parseMainHeading? sh = none) (hsub : parseSubHeading? sh = some c)
    (h4 : st.curSec = some 4)
    (hT : ∀ l ∈ T, parseMainHeading? l = none)
    (hTs : ∀ l ∈ T, parseSubHeading? l = none) :
    List.foldl stepPS st (sh :: T) =
      ⟨some 4, some c, T, (flushPS st).acc⟩ := by
  rw [List.foldl_cons, stepPS_sub st sh c hm hsub h4]
  rw [foldPS_content T _ hT (fun _ => hTs)]
  refine PSState_ext _ _ ?_ rfl ?_ rfl
  · show (flushPS st).curSec = some 4
    rw [flushPS_curSec]
    exact h4
  · show (flushPS st).buffer ++ T = T
    rw [flushPS_buffer]
    rfl

theorem parseMain_hd1 : parseMainHeading? hd1 = some 1 := by decide
theorem parseMain_hd2 : parseMainHeading? hd2 = some 2 := by decide
theorem parseMain_hd3 : parseMainHeading? hd3 = some 3 := by decide
theorem parseMain_hd4 : parseMainHeading? hd4 = some 4 := by decide
theorem parseMain_hd5 : parseMainHeading? hd5 = some 5 := by decide
theorem parseMain_hd6 : parseMainHeading? hd6 = some 6 := by decide
theorem parseMain_hd7 : parseMainHeading? hd7 = some 7 := by decide
theorem parseMain_hd8 : parseMainHeading? hd8 = some 8 := by decide
theorem parseMain_hd9 : parseMainHeading? hd9 = some 9 := by decide
theorem parseMain_hd10 : parseMainHeading? hd10 = some 10 := by decide
theorem parseMain_hd11 : parseMainHeading? hd11 = some 11 := by decide
theorem parseMain_blank : parseMainHeading? (lit "") = none := by decide
theorem parseSub_blank : parseSubHeading? (lit "") = none := by decide
theorem parseMain_sub4a : parseMainHeading? sub4a = none := by decide
theorem parseMain_sub4b : parseMainHeading? sub4b = none := by decide
theorem parseMain_sub4c : parseMainHeading? sub4c = none := by decide
theorem parseMain_sub4d : parseMainHeading? sub4d = none := by decide
theorem parseMain_sub4e : parseMainHeading? sub4e = none := by decide
theorem parseSub_sub4a : parseSubHeading? sub4a = some 'a' := by decide
theorem parseSub_sub4b : parseSubHeading? sub4b = some 'b' := by decide
theorem parseSub_sub4c : parseSubHeading? sub4c = some 'c' := by decide
theorem parseSub_sub4d : parseSubHeading? sub4d = some 'd' := by decide
theorem parseSub_sub4e : parseSubHeading? sub4e = some 'e' := by decide

theorem fmFind_append (ys : List Str) (c0 : Str) (cs : List Str)
    (h : ∀ l ∈ ys, l ≠ lit "---") :
    fmFind (ys ++ lit "---" :: c0 :: cs) = some (ys, c0 :: cs) := by
  induction ys with
  | nil =>
    show fmFind (lit "---" :: c0 :: cs) = _
    unfold fmFind
    rw [if_pos (by simp)]
  | cons y ys ih =>
    show fmFind (y :: (ys ++ lit "---" :: c0 :: cs)) = _
    unfold fmFind
    rw [if_neg (by simp [h y (List.mem_cons_self _ _)])]
    rw [ih (fun l hl => h l (List.mem_cons_of_mem _ hl))]
    rfl

theorem colonSplit_concrete (k : Str) (rest : Str) (hk : ':' ∉ k) :
    colonSplit (k ++ ':' :: rest) = some (k, rest) := by
  induction k with
  | nil => simp [colonSplit]
  | cons c cs ih =>
    have hc : ¬ (c = ':') := fun h => hk (by simp [h])
    show colonSplit (c :: (cs ++ ':' :: rest)) = _
    unfold colonSplit
    rw [if_neg hc, ih (fun h => hk (List.mem_cons_of_mem _ h))]
    rfl

theorem parseYamlLine_numKV (fm : List (Str × JVal)) (k : Str) (n : Int)
    (hk : ':' ∉ k) (hkt : trimStr k = k) (hke : ¬ (k = [])) :
    parseYamlLine fm (k ++ ':' :: ' ' :: intToChars n) = fm ++ [(k, JVal.num n)] := by
  unfold parseYamlLine
  rw [colonSplit_concrete k _ hk]
  dsimp only
  rw [if_neg hke]
  have hval : trimStr (' ' :: intToChars n) = intToChars n :=
    trimStr_space_of_noWs _ (intToChars_noWs n)
  rw [hval, jsStrNum_intToChars]
  dsimp only
  rw [hkt]

theorem parseYamlLine_dateKV (fm : List (Str × JVal)) (k d : Str)
    (hk : ':' ∉ k) (hkt : trimStr k = k) (hke : ¬ (k = []))
    (hd : jsDateRe d = true) :
    parseYamlLine fm (k ++ ':' :: ' ' :: d) = fm ++ [(k, JVal.str d)] := by
  unfold parseYamlLine
  rw [colonSplit_concrete k _ hk]
  dsimp only
  rw [if_neg hke]
  have hval : trimStr (' ' :: d) = d :=
    trimStr_space_of_noWs _ (dateRe_noWs d hd)
  rw [hval, jsStrNum_dateRe d hd]
  dsimp only
  rw [hkt]

theorem flatten_map_singleton {α : Type} (L : List α) :
    (L.map fun l => [l]).flatten = L := by
  induction L with
  | nil => rfl
  | cons x xs ih => simp [ih]

theorem splitNl_joinLines_of_noNl (L : List Str) (hne : L ≠ [])
    (h : ∀ l ∈ L, '\n' ∉ l) : splitNl (joinLines L) = L := by
  rw [splitNl_joinLines L hne]
  have hmap : L.map splitNl = L.map fun l => [l] :=
    List.map_congr_left fun l hl => splitNl_of_no_newline l (h l hl)
  rw [hmap, flatten_map_singleton]

theorem trim_joinLines_splitNl_blank (t : Str) :
    trimStr (joinLines (splitNl t ++ [lit ""])) = trimStr t := by
  rw [joinLines_append_single _ _ (splitNl_ne_nil t), joinLines_splitNl]
  exact trimStr_append_ws t '\n' (by decide)

theorem cons_ne_dashes (c : Char) (r : Str) (hc : ¬ c = '-') :
    c :: r ≠ lit "---" := by
  intro he
  injection he with h1 h2
  exact hc h1

theorem mainFree_forall (t : Str) (h : mainFreeLines t = true) (hcr : '\r' ∉ t) :
    ∀ l ∈ splitNl t, parseMainHeading? l = none := by
  intro l hl
  unfold mainFreeLines at h
  rw [List.all_eq_true] at h
  have hmem : l ∈ splitLines t := by
    rw [splitLines_eq_splitNl t hcr]
    exact hl
  have hx := h l hmem
  rwa [Option.isNone_iff_eq_none] at hx

theorem subFree_forall (t : Str) (h : subFreeLines t = true) (hcr : '\r' ∉ t) :
    ∀ l ∈ splitNl t, parseSubHeading? l = none := by
  intro l hl
  unfold subFreeLines at h
  rw [List.all_eq_true] at h
  have hmem : l ∈ splitLines t := by
    rw [splitLines_eq_splitNl t hcr]
    exact hl
  have hx := h l hmem
  rwa [Option.isNone_iff_eq_none] at hx

theorem mainFree_withBlank (t : Str) (h : mainFreeLines t = true) (hcr : '\r' ∉ t) :
    ∀ l ∈ splitNl t ++ [lit ""], parseMainHeading? l = none := by
  intro l hl
  rcases List.mem_append.mp hl with hm | hm
  · exact mainFree_forall t h hcr l hm
  · rcases List.mem_singleton.mp hm with rfl
    exact parseMain_blank

theorem subFree_withBlank (t : Str) (h : subFreeLines t = true) (hcr : '\r' ∉ t) :
    ∀ l ∈ splitNl t ++ [lit ""], parseSubHeading? l = none := by
  intro l hl
  rcases List.mem_append.mp hl with hm | hm
  · exact subFree_forall t h hcr l hm
  · rcases List.mem_singleton.mp hm with rfl
    exact parseSub_blank

theorem blankMainList : ∀ l ∈ [lit ""], parseMainHeading? l = none := by
  intro l hl
  rcases List.mem_singleton.mp hl with rfl
  exact parseMain_blank

theorem blankSubList : ∀ l ∈ [lit ""], parseSubHeading? l = none := by
  intro l hl
  rcases List.mem_singleton.mp hl with rfl
  exact parseSub_blank

theorem runSection4 (st : PSState) (hd : Str) (T : List Str)
    (hh : parseMainHeading? hd = some 4)
    (hT : ∀ l ∈ T, parseMainHeading? l = none)
    (hTs : ∀ l ∈ T, parseSubHeading? l = none) :
    List.foldl stepPS st (hd :: T) = ⟨some 4, none, T, (flushPS st).acc⟩ := by
  rw [List.foldl_cons, stepPS_main st hd 4 hh]
  rw [foldPS_content T _ hT (fun h4 => hTs)]
  refine PSState_ext _ _ rfl rfl ?_ rfl
  show (flushPS st).buffer ++ T = T
  rw [flushPS_buffer]
  rfl

theorem noNl_of_noWs (s : Str) (h : ∀ c ∈ s, isWsChar c = false) : '\n' ∉ s := by
  intro hm
  have hx := h '\n' hm
  exact absurd hx (by decide)

theorem splitNl_label_noWs (pre s : Str) (hpre : ¬ '\n' ∈ pre)
    (hs : ∀ c ∈ s, isWsChar c = false) : splitNl (pre ++ s) = [pre ++ s] := by
  refine splitNl_of_no_newline _ ?_
  intro hm
  rcases List.mem_append.mp hm with h | h
  · exact hpre h
  · exact noNl_of_noWs s hs h

theorem fmFind_meta (l1 l2 l3 l4 l5 l6 l7 c0 : Str) (cs : List Str)
    (h1 : l1 ≠ lit "---") (h2 : l2 ≠ lit "---") (h3 : l3 ≠ lit "---")
    (h4 : l4 ≠ lit "---") (h5 : l5 ≠ lit "---") (h6 : l6 ≠ lit "---")
    (h7 : l7 ≠ lit "---") :
    fmFind (l1 :: l2 :: l3 :: l4 :: l5 :: l6 :: l7 :: lit "---" :: c0 :: cs) =
      some ([l1, l2, l3, l4, l5, l6, l7], c0 :: cs) := by
  have hall : ∀ l ∈ [l1, l2, l3, l4, l5, l6, l7], l ≠ lit "---" := by
    intro l hl
    simp only [List.mem_cons, List.not_mem_nil, or_false] at hl
    rcases hl with rfl | rfl | rfl | rfl | rfl | rfl | rfl
    · exact h1
    · exact h2
    · exact h3
    · exact h4
    · exact h5
    · exact h6
    · exact h7
  exact fmFind_append [l1, l2, l3, l4, l5, l6, l7] c0 cs hall

theorem trim_join_blank : trimStr (joinLines [lit ""]) = [] := by decide

theorem splitNl_hd1 : splitNl hd1 = [hd1] := by decide

theorem splitNl_hd2 : splitNl hd2 = [hd2] := by decide

theorem splitNl_hd3 : splitNl hd3 = [hd3] := by decide

theorem splitNl_hd4 : splitNl hd4 = [hd4] := by decide

theorem splitNl_hd5 : splitNl hd5 = [hd5] := by decide

theorem splitNl_hd6 : splitNl hd6 = [hd6] := by decide

theorem splitNl_hd7 : splitNl hd7 = [hd7] := by decide

theorem splitNl_hd8 : splitNl hd8 = [hd8] := by decide

theorem splitNl_hd9 : splitNl hd9 = [hd9] := by decide

theorem splitNl_hd10 : splitNl hd10 = [hd10] := by decide

theorem splitNl_hd11 : splitNl hd11 = [hd11] := by decide

theorem splitNl_sub4a : splitNl sub4a = [sub4a] := by decide

theorem splitNl_sub4b : splitNl sub4b = [sub4b] := by decide

theorem splitNl_sub4c : splitNl sub4c = [sub4c] := by decide

theorem splitNl_sub4d : splitNl sub4d = [sub4d] := by decide

theorem splitNl_sub4e : splitNl sub4e = [sub4e] := by decide

theorem splitNl_dashes : splitNl (lit "---") = [lit "---"] := by decide

theorem splitNl_schema1 : splitNl (lit "schema: 1") = [lit "schema: 1"] := by decide

theorem splitNl_blankLine : splitNl (lit "") = [lit ""] := by decide

theorem secKey_section_1 : secKey 1 none = lit "section_1" := by decide

theorem secKey_section_2 : secKey 2 none = lit "section_2" := by decide

theorem secKey_section_3 : secKey 3 none = lit "section_3" := by decide

theorem secKey_section_4 : secKey 4 none = lit "section_4" := by decide

theorem secKey_section_4a : secKey 4 (some 'a') = lit "section_4a" := by decide

theorem secKey_section_4b : secKey 4 (some 'b') = lit "section_4b" := by decide

theorem secKey_section_4c : secKey 4 (some 'c') = lit "section_4c" := by decide

theorem secKey_section_4d : secKey 4 (some 'd') = lit "section_4d" := by decide

theorem secKey_section_4e : secKey 4 (some 'e') = lit "section_4e" := by decide

theorem secKey_section_5 : secKey 5 none = lit "section_5" := by decide

theorem secKey_section_6 : secKey 6 none = lit "section_6" := by decide

theorem secKey_section_7 : secKey 7 none = lit "section_7" := by decide

theorem secKey_section_8 : secKey 8 none = lit "section_8" := by decide

theorem secKey_section_9 : secKey 9 none = lit "section_9" := by decide

theorem secKey_section_10 : secKey 10 none = lit "section_10" := by decide

theorem secKey_section_11 : secKey 11 none = lit "section_11" := by decide

/-- C1 (amended): for a record with a well-formed date, scores in range,
section texts free of carriage returns, and no text line the parser reads
as a section or subsection heading, `fromMarkdown (toMarkdown entry)`
returns the record with every section text trimmed and all scalar fields
intact. -/
theorem c1_markdown_round_trip (p : PlainEntry)
    (hv : validPlain p = true) (hinj : noHeadingInjection p = true)
    (hcrf : crFree p = true) :
    matchesModTrim (fromMarkdown (toMarkdown (toEntry p))) p := by
  unfold validPlain at hv
  simp only [Bool.and_eq_true, decide_eq_true_eq] at hv
  have hD : jsDateRe p.pdate = true := hv.1.1.1.1.1.1.1.1.1.1
  unfold noHeadingInjection at hinj
  simp only [Bool.and_eq_true] at hinj
  obtain ⟨⟨⟨⟨⟨⟨⟨⟨⟨⟨⟨⟨⟨⟨⟨⟨⟨⟨⟨hm1, hm2⟩, hm3⟩, hma⟩, hmb⟩, hmc⟩, hmd⟩, hme⟩, hm5⟩, hm6⟩, hm7⟩, hm8⟩, hm9⟩, hm10⟩, hm11⟩, hsa⟩, hsb⟩, hsc⟩, hsd⟩, hse⟩ := hinj
  unfold crFree at hcrf
  simp only [Bool.and_eq_true, decide_eq_true_eq] at hcrf
  obtain ⟨⟨⟨⟨⟨⟨⟨⟨⟨⟨⟨⟨⟨⟨hcr1, hcr2⟩, hcr3⟩, hcra⟩, hcrb⟩, hcrc⟩, hcrd⟩, hcre⟩, hcr5⟩, hcr6⟩, hcr7⟩, hcr8⟩, hcr9⟩, hcr10⟩, hcr11⟩ := hcrf
  have htm : toMarkdown (toEntry p) = joinLines
      [lit "---", lit "schema: 1", lit "date: " ++ p.pdate,
       lit "score: " ++ intToChars p.pscore,
       lit "discipline: " ++ intToChars p.pdiscipline,
       lit "focus: " ++ intToChars p.pfocus,
       lit "energy: " ++ intToChars p.penergy,
       lit "mood: " ++ intToChars p.pmood,
       lit "net_worth_delta: " ++ intToChars p.pnwd,
       lit "---", lit "",
       hd1, p.t1, lit "", hd2, p.t2, lit "", hd3, p.t3, lit "",
       hd4, lit "", sub4a, p.t4a, lit "", sub4b, p.t4b, lit "",
       sub4c, p.t4c, lit "", sub4d, p.t4d, lit "", sub4e, p.t4e, lit "",
       hd5, p.t5, lit "", hd6, p.t6, lit "", hd7, p.t7, lit "",
       hd8, p.t8, lit "", hd9, p.t9, lit "", hd10, p.t10, lit "",
       hd11, p.t11] := rfl
  have hcrdoc : '\r' ∉ toMarkdown (toEntry p) := by
    rw [htm]
    refine noCR_joinLines _ ?_
    intro l hl
    simp only [List.mem_cons, List.not_mem_nil, or_false] at hl
    rcases hl with rfl | rfl | rfl | rfl | rfl | rfl | rfl | rfl | rfl | rfl | rfl | rfl | rfl | rfl | rfl | rfl | rfl | rfl | rfl | rfl | rfl | rfl | rfl | rfl | rfl | rfl | rfl | rfl | rfl | rfl | rfl | rfl | rfl | rfl | rfl | rfl | rfl | rfl | rfl | rfl | rfl | rfl | rfl | rfl | rfl | rfl | rfl | rfl | rfl | rfl | rfl | rfl | rfl | rfl | rfl | rfl | rfl
    · decide
    · decide
    · exact noCR_label _ _ (by decide) (dateRe_noWs _ hD)
    · exact noCR_label _ _ (by decide) (intToChars_noWs p.pscore)
    · exact noCR_label _ _ (by decide) (intToChars_noWs p.pdiscipline)
    · exact noCR_label _ _ (by decide) (intToChars_noWs p.pfocus)
    · exact noCR_label _ _ (by decide) (intToChars_noWs p.penergy)
    · exact noCR_label _ _ (by decide) (intToChars_noWs p.pmood)
    · exact noCR_label _ _ (by decide) (intToChars_noWs p.pnwd)
    · decide
    · decide
    · decide
    · exact hcr1
    · decide
    · decide
    · exact hcr2
    · decide
    · decide
    · exact hcr3
    · decide
    · decide
    · decide
    · decide
    · exact hcra
    · decide
    · decide
    · exact hcrb
    · decide
    · decide
    · exact hcrc
    · decide
    · decide
    · exact hcrd
    · decide
    · decide
    · exact hcre
    · decide
    · decide
    · exact hcr5
    · decide
    · decide
    · exact hcr6
    · decide
    · decide
    · exact hcr7
    · decide
    · decide
    · exact hcr8
    · decide
    · decide
    · exact hcr9
    · decide
    · decide
    · exact hcr10
    · decide
    · decide
    · exact hcr11
  have hdoc : splitLines (toMarkdown (toEntry p)) = metaLinesOf p ++ contentLinesOf p := by
    rw [splitLines_eq_splitNl _ hcrdoc]
    rw [htm, splitNl_joinLines _ (by simp)]
    simp only [List.map_cons, List.map_nil, List.flatten_cons, List.flatten_nil,
      splitNl_dashes, splitNl_schema1, splitNl_blankLine,
      splitNl_hd1, splitNl_hd2, splitNl_hd3, splitNl_hd4,
      splitNl_hd5, splitNl_hd6, splitNl_hd7, splitNl_hd8,
      splitNl_hd9, splitNl_hd10, splitNl_hd11,
      splitNl_sub4a, splitNl_sub4b, splitNl_sub4c, splitNl_sub4d,
      splitNl_sub4e, List.append_nil]
    rw [splitNl_label_noWs (lit "date: ") p.pdate (by decide) (dateRe_noWs _ hD)]
    rw [splitNl_label_noWs (lit "score: ") (intToChars p.pscore) (by decide)
      (intToChars_noWs _)]
    rw [splitNl_label_noWs (lit "discipline: ") (intToChars p.pdiscipline) (by decide)
      (intToChars_noWs _)]
    rw [splitNl_label_noWs (lit "focus: ") (intToChars p.pfocus) (by decide)
      (intToChars_noWs _)]
    rw [splitNl_label_noWs (lit "energy: ") (intToChars p.penergy) (by decide)
      (intToChars_noWs _)]
    rw [splitNl_label_noWs (lit "mood: ") (intToChars p.pmood) (by decide)
      (intToChars_noWs _)]
    rw [splitNl_label_noWs (lit "net_worth_delta: ") (intToChars p.pnwd) (by decide)
      (intToChars_noWs _)]
    simp only [metaLinesOf, contentLinesOf, contentTailOf, List.cons_append,
      List.nil_append, List.singleton_append, List.append_assoc]
  have hy1 : parseYamlLine ([] : List (Str × JVal)) (lit "schema: 1") = [(lit "schema", JVal.num 1)] := by decide
  have hy2 : parseYamlLine [(lit "schema", JVal.num 1)] (lit "date: " ++ p.pdate) = [(lit "schema", JVal.num 1), (lit "date", JVal.str p.pdate)] :=
    parseYamlLine_dateKV [(lit "schema", JVal.num 1)] (lit "date") p.pdate (by decide) (by decide)
      (by decide) hD
  have hy3 : parseYamlLine [(lit "schema", JVal.num 1), (lit "date", JVal.str p.pdate)] (lit "score: " ++ intToChars p.pscore) = [(lit "schema", JVal.num 1), (lit "date", JVal.str p.pdate), (lit "score", JVal.num p.pscore)] :=
    parseYamlLine_numKV [(lit "schema", JVal.num 1), (lit "date", JVal.str p.pdate)] (lit "score") p.pscore (by decide) (by decide)
      (by decide)
  have hy4 : parseYamlLine [(lit "schema", JVal.num 1), (lit "date", JVal.str p.pdate), (lit "score", JVal.num p.pscore)] (lit "discipline: " ++ intToChars p.pdiscipline) = [(lit "schema", JVal.num 1), (lit "date", JVal.str p.pdate), (lit "score", JVal.num p.pscore), (lit "discipline", JVal.num p.pdiscipline)] :=
    parseYamlLine_numKV [(lit "schema", JVal.num 1), (lit "date", JVal.str p.pdate), (lit "score", JVal.num p.pscore)] (lit "discipline") p.pdiscipline (by decide) (by decide)
      (by decide)
  have hy5 : parseYamlLine [(lit "schema", JVal.num 1), (lit "date", JVal.str p.pdate), (lit "score", JVal.num p.pscore), (lit "discipline", JVal.num p.pdiscipline)] (lit "focus: " ++ intToChars p.pfocus) = [(lit "schema", JVal.num 1), (lit "date", JVal.str p.pdate), (lit "score", JVal.num p.pscore), (lit "discipline", JVal.num p.pdiscipline), (lit "focus", JVal.num p.pfocus)] :=
    parseYamlLine_numKV [(lit "schema", JVal.num 1), (lit "date", JVal.str p.pdate), (lit "score", JVal.num p.pscore), (lit "discipline", JVal.num p.pdiscipline)] (lit "focus") p.pfocus (by decide) (by decide)
      (by decide)
  have hy6 : parseYamlLine [(lit "schema", JVal.num 1), (lit "date", JVal.str p.pdate), (lit "score", JVal.num p.pscore), (lit "discipline", JVal.num p.pdiscipline), (lit "focus", JVal.num p.pfocus)] (lit "energy: " ++ intToChars p.penergy) = [(lit "schema", JVal.num 1), (lit "date", JVal.str p.pdate), (lit "score", JVal.num p.pscore), (lit "discipline", JVal.num p.pdiscipline), (lit "focus", JVal.num p.pfocus), (lit "energy", JVal.num p.penergy)] :=
    parseYamlLine_numKV [(lit "schema", JVal.num 1), (lit "date", JVal.str p.pdate), (lit "score", JVal.num p.pscore), (lit "discipline", JVal.num p.pdiscipline), (lit "focus", JVal.num p.pfocus)] (lit "energy") p.penergy (by decide) (by decide)
      (by decide)
  have hy7 : parseYamlLine [(lit "schema", JVal.num 1), (lit "date", JVal.str p.pdate), (lit "score", JVal.num p.pscore), (lit "discipline", JVal.num p.pdiscipline), (lit "focus", JVal.num p.pfocus), (lit "energy", JVal.num p.penergy)] (lit "mood: " ++ intToChars p.pmood) = [(lit "schema", JVal.num 1), (lit "date", JVal.str p.pdate), (lit "score", JVal.num p.pscore), (lit "discipline", JVal.num p.pdiscipline), (lit "focus", JVal.num p.pfocus), (lit "energy", JVal.num p.penergy), (lit "mood", JVal.num p.pmood)] :=
    parseYamlLine_numKV [(lit "schema", JVal.num 1), (lit "date", JVal.str p.pdate), (lit "score", JVal.num p.pscore), (lit "discipline", JVal.num p.pdiscipline), (lit "focus", JVal.num p.pfocus), (lit "energy", JVal.num p.penergy)] (lit "mood") p.pmood (by decide) (by decide)
      (by decide)
  have hy8 : parseYamlLine [(lit "schema", JVal.num 1), (lit "date", JVal.str p.pdate), (lit "score", JVal.num p.pscore), (lit "discipline", JVal.num p.pdiscipline), (lit "focus", JVal.num p.pfocus), (lit "energy", JVal.num p.penergy), (lit "mood", JVal.num p.pmood)] (lit "net_worth_delta: " ++ intToChars p.pnwd) = [(lit "schema", JVal.num 1), (lit "date", JVal.str p.pdate), (lit "score", JVal.num p.pscore), (lit "discipline", JVal.num p.pdiscipline), (lit "focus", JVal.num p.pfocus), (lit "energy", JVal.num p.penergy), (lit "mood", JVal.num p.pmood), (lit "net_worth_delta", JVal.num p.pnwd)] :=
    parseYamlLine_numKV [(lit "schema", JVal.num 1), (lit "date", JVal.str p.pdate), (lit "score", JVal.num p.pscore), (lit "discipline", JVal.num p.pdiscipline), (lit "focus", JVal.num p.pfocus), (lit "energy", JVal.num p.penergy), (lit "mood", JVal.num p.pmood)] (lit "net_worth_delta") p.pnwd (by decide) (by decide)
      (by decide)
  have hpf : parseFrontmatter (toMarkdown (toEntry p)) =
      (fmListOf p, joinLines (contentLinesOf p)) := by
    unfold parseFrontmatter
    rw [hdoc]
    rw [show metaLinesOf p ++ contentLinesOf p =
      lit "---" :: lit "schema: 1" :: ((lit "date: " ++ p.pdate) ::
        (lit "score: " ++ intToChars p.pscore) ::
        (lit "discipline: " ++ intToChars p.pdiscipline) ::
        (lit "focus: " ++ intToChars p.pfocus) ::
        (lit "energy: " ++ intToChars p.penergy) ::
        (lit "mood: " ++ intToChars p.pmood) ::
        (lit "net_worth_delta: " ++ intToChars p.pnwd) ::
        lit "---" :: lit "" :: contentTailOf p) from rfl]
    dsimp only
    rw [if_pos rfl]
    rw [fmFind_meta (lit "date: " ++ p.pdate) (lit "score: " ++ intToChars p.pscore)
      (lit "discipline: " ++ intToChars p.pdiscipline)
      (lit "focus: " ++ intToChars p.pfocus)
      (lit "energy: " ++ intToChars p.penergy)
      (lit "mood: " ++ intToChars p.pmood)
      (lit "net_worth_delta: " ++ intToChars p.pnwd)
      (lit "") (contentTailOf p)
      (cons_ne_dashes 'd' (lit "ate: " ++ p.pdate) (by decide))
      (cons_ne_dashes 's' (lit "core: " ++ intToChars p.pscore) (by decide))
      (cons_ne_dashes 'd' (lit "iscipline: " ++ intToChars p.pdiscipline) (by decide))
      (cons_ne_dashes 'f' (lit "ocus: " ++ intToChars p.pfocus) (by decide))
      (cons_ne_dashes 'e' (lit "nergy: " ++ intToChars p.penergy) (by decide))
      (cons_ne_dashes 'm' (lit "ood: " ++ intToChars p.pmood) (by decide))
      (cons_ne_dashes 'n' (lit "et_worth_delta: " ++ intToChars p.pnwd) (by decide))]
    dsimp only
    rw [List.foldl_cons, hy1, List.foldl_cons, hy2, List.foldl_cons, hy3,
      List.foldl_cons, hy4, List.foldl_cons, hy5, List.foldl_cons, hy6,
      List.foldl_cons, hy7, List.foldl_cons, hy8, List.foldl_nil]
    rfl
  have e1 : List.foldl stepPS (⟨none, none, [], []⟩ : PSState)
      (lit "" :: contentTailOf p) =
      List.foldl stepPS (⟨none, none, [lit ""], []⟩ : PSState) (contentTailOf p) := by
    rw [List.foldl_cons, stepPS_content _ _ parseMain_blank (fun h4 => parseSub_blank)]
    rfl
  have f1 : List.foldl stepPS (⟨none, none, [lit ""], []⟩ : PSState) (hd1 :: (splitNl p.t1 ++ [lit ""])) = (⟨some 1, none, splitNl p.t1 ++ [lit ""], []⟩ : PSState) := by
    rw [runSection _ hd1 1 _ parseMain_hd1 (by decide) (mainFree_withBlank _ hm1 hcr1)]
    refine PSState_ext _ _ rfl rfl rfl ?_
    rfl
  have f2 : List.foldl stepPS (⟨some 1, none, splitNl p.t1 ++ [lit ""], []⟩ : PSState) (hd2 :: (splitNl p.t2 ++ [lit ""])) = (⟨some 2, none, splitNl p.t2 ++ [lit ""], [(lit "section_1", trimStr p.t1)]⟩ : PSState) := by
    rw [runSection _ hd2 2 _ parseMain_hd2 (by decide) (mainFree_withBlank _ hm2 hcr2)]
    refine PSState_ext _ _ rfl rfl rfl ?_
    rw [flushPS_of_sec _ 1 rfl]
    dsimp only
    rw [trim_joinLines_splitNl_blank, secKey_section_1]
    rfl
  have f3 : List.foldl stepPS (⟨some 2, none, splitNl p.t2 ++ [lit ""], [(lit "section_1", trimStr p.t1)]⟩ : PSState) (hd3 :: (splitNl p.t3 ++ [lit ""])) = (⟨some 3, none, splitNl p.t3 ++ [lit ""], [(lit "section_1", trimStr p.t1), (lit "section_2", trimStr p.t2)]⟩ : PSState) := by
    rw [runSection _ hd3 3 _ parseMain_hd3 (by decide) (mainFree_withBlank _ hm3 hcr3)]
    refine PSState_ext _ _ rfl rfl rfl ?_
    rw [flushPS_of_sec _ 2 rfl]
    dsimp only
    rw [trim_joinLines_splitNl_blank, secKey_section_2]
    rfl
  have f4 : List.foldl stepPS (⟨some 3, none, splitNl p.t3 ++ [lit ""], [(lit "section_1", trimStr p.t1), (lit "section_2", trimStr p.t2)]⟩ : PSState) (hd4 :: [lit ""]) = (⟨some 4, none, [lit ""], [(lit "section_1", trimStr p.t1), (lit "section_2", trimStr p.t2), (lit "section_3", trimStr p.t3)]⟩ : PSState) := by
    rw [runSection4 _ hd4 [lit ""] parseMain_hd4 blankMainList blankSubList]
    refine PSState_ext _ _ rfl rfl rfl ?_
    rw [flushPS_of_sec _ 3 rfl]
    dsimp only
    rw [trim_joinLines_splitNl_blank, secKey_section_3]
    rfl
  have g1 : List.foldl stepPS (⟨some 4, none, [lit ""], [(lit "section_1", trimStr p.t1), (lit "section_2", trimStr p.t2), (lit "section_3", trimStr p.t3)]⟩ : PSState) (sub4a :: (splitNl p.t4a ++ [lit ""])) = (⟨some 4, some 'a', splitNl p.t4a ++ [lit ""], [(lit "section_1", trimStr p.t1), (lit "section_2", trimStr p.t2), (lit "section_3", trimStr p.t3), (lit "section_4", ([] : Str))]⟩ : PSState) := by
    rw [runSubsection _ sub4a 'a' _ parseMain_sub4a parseSub_sub4a rfl (mainFree_withBlank _ hma hcra) (subFree_withBlank _ hsa hcra)]
    refine PSState_ext _ _ rfl rfl rfl ?_
    rw [flushPS_of_sec _ 4 rfl]
    dsimp only
    rw [trim_join_blank, secKey_section_4]
    rfl
  have g2 : List.foldl stepPS (⟨some 4, some 'a', splitNl p.t4a ++ [lit ""], [(lit "section_1", trimStr p.t1), (lit "section_2", trimStr p.t2), (lit "section_3", trimStr p.t3), (lit "section_4", ([] : Str))]⟩ : PSState) (sub4b :: (splitNl p.t4b ++ [lit ""])) = (⟨some 4, some 'b', splitNl p.t4b ++ [lit ""], [(lit "section_1", trimStr p.t1), (lit "section_2", trimStr p.t2), (lit "section_3", trimStr p.t3), (lit "section_4", ([] : Str)), (lit "section_4a", trimStr p.t4a)]⟩ : PSState) := by
    rw [runSubsection _ sub4b 'b' _ parseMain_sub4b parseSub_sub4b rfl (mainFree_withBlank _ hmb hcrb) (subFree_withBlank _ hsb hcrb)]
    refine PSState_ext _ _ rfl rfl rfl ?_
    rw [flushPS_of_sec _ 4 rfl]
    dsimp only
    rw [trim_joinLines_splitNl_blank, secKey_section_4a]
    rfl
  have g3 : List.foldl stepPS (⟨some 4, some 'b', splitNl p.t4b ++ [lit ""], [(lit "section_1", trimStr p.t1), (lit "section_2", trimStr p.t2), (lit "section_3", trimStr p.t3), (lit "section_4", ([] : Str)), (lit "section_4a", trimStr p.t4a)]⟩ : PSState) (sub4c :: (splitNl p.t4c ++ [lit ""])) = (⟨some 4, some 'c', splitNl p.t4c ++ [lit ""], [(lit "section_1", trimStr p.t1), (lit "section_2", trimStr p.t2), (lit "section_3", trimStr p.t3), (lit "section_4", ([] : Str)), (lit "section_4a", trimStr p.t4a), (lit "section_4b", trimStr p.t4b)]⟩ : PSState) := by
    rw [runSubsection _ sub4c 'c' _ parseMain_sub4c parseSub_sub4c rfl (mainFree_withBlank _ hmc hcrc) (subFree_withBlank _ hsc hcrc)]
    refine PSState_ext _ _ rfl rfl rfl ?_
    rw [flushPS_of_sec _ 4 rfl]
    dsimp only
    rw [trim_joinLines_splitNl_blank, secKey_section_4b]
    rfl
  have g4 : List.foldl stepPS (⟨some 4, some 'c', splitNl p.t4c ++ [lit ""], [(lit "section_1", trimStr p.t1), (lit "section_2", trimStr p.t2), (lit "section_3", trimStr p.t3), (lit "section_4", ([] : Str)), (lit "section_4a", trimStr p.t4a), (lit "section_4b", trimStr p.t4b)]⟩ : PSState) (sub4d :: (splitNl p.t4d ++ [lit ""])) = (⟨some 4, some 'd', splitNl p.t4d ++ [lit ""], [(lit "section_1", trimStr p.t1), (lit "section_2", trimStr p.t2), (lit "section_3", trimStr p.t3), (lit "section_4", ([] : Str)), (lit "section_4a", trimStr p.t4a), (lit "section_4b", trimStr p.t4b), (lit "section_4c", trimStr p.t4c)]⟩ : PSState) := by
    rw [runSubsection _ sub4d 'd' _ parseMain_sub4d parseSub_sub4d rfl (mainFree_withBlank _ hmd hcrd) (subFree_withBlank _ hsd hcrd)]
    refine PSState_ext _ _ rfl rfl rfl ?_
    rw [flushPS_of_sec _ 4 rfl]
    dsimp only
    rw [trim_joinLines_splitNl_blank, secKey_section_4c]
    rfl
  have g5 : List.foldl stepPS (⟨some 4, some 'd', splitNl p.t4d ++ [lit ""], [(lit "section_1", trimStr p.t1), (lit "section_2", trimStr p.t2), (lit "section_3", trimStr p.t3), (lit "section_4", ([] : Str)), (lit "section_4a", trimStr p.t4a), (lit "section_4b", trimStr p.t4b), (lit "section_4c", trimStr p.t4c)]⟩ : PSState) (sub4e :: (splitNl p.t4e ++ [lit ""])) = (⟨some 4, some 'e', splitNl p.t4e ++ [lit ""], [(lit "section_1", trimStr p.t1), (lit "section_2", trimStr p.t2), (lit "section_3", trimStr p.t3), (lit "section_4", ([] : Str)), (lit "section_4a", trimStr p.t4a), (lit "section_4b", trimStr p.t4b), (lit "section_4c", trimStr p.t4c), (lit "section_4d", trimStr p.t4d)]⟩ : PSState) := by
    rw [runSubsection _ sub4e 'e' _ parseMain_sub4e parseSub_sub4e rfl (mainFree_withBlank _ hme hcre) (subFree_withBlank _ hse hcre)]
    refine PSState_ext _ _ rfl rfl rfl ?_
    rw [flushPS_of_sec _ 4 rfl]
    dsimp only
    rw [trim_joinLines_splitNl_blank, secKey_section_4d]
    rfl
  have f5 : List.foldl stepPS (⟨some 4, some 'e', splitNl p.t4e ++ [lit ""], [(lit "section_1", trimStr p.t1), (lit "section_2", trimStr p.t2), (lit "section_3", trimStr p.t3), (lit "section_4", ([] : Str)), (lit "section_4a", trimStr p.t4a), (lit "section_4b", trimStr p.t4b), (lit "section_4c", trimStr p.t4c), (lit "section_4d", trimStr p.t4d)]⟩ : PSState) (hd5 :: (splitNl p.t5 ++ [lit ""])) = (⟨some 5, none, splitNl p.t5 ++ [lit ""], [(lit "section_1", trimStr p.t1), (lit "section_2", trimStr p.t2), (lit "section_3", trimStr p.t3), (lit "section_4", ([] : Str)), (lit "section_4a", trimStr p.t4a), (lit "section_4b", trimStr p.t4b), (lit "section_4c", trimStr p.t4c), (lit "section_4d", trimStr p.t4d), (lit "section_4e", trimStr p.t4e)]⟩ : PSState) := by
    rw [runSection _ hd5 5 _ parseMain_hd5 (by decide) (mainFree_withBlank _ hm5 hcr5)]
    refine PSState_ext _ _ rfl rfl rfl ?_
    rw [flushPS_of_sec _ 4 rfl]
    dsimp only
    rw [trim_joinLines_splitNl_blank, secKey_section_4e]
    rfl
  have f6 : List.foldl stepPS (⟨some 5, none, splitNl p.t5 ++ [lit ""], [(lit "section_1", trimStr p.t1), (lit "section_2", trimStr p.t2), (lit "section_3", trimStr p.t3), (lit "section_4", ([] : Str)), (lit "section_4a", trimStr p.t4a), (lit "section_4b", trimStr p.t4b), (lit "section_4c", trimStr p.t4c), (lit "section_4d", trimStr p.t4d), (lit "section_4e", trimStr p.t4e)]⟩ : PSState) (hd6 :: (splitNl p.t6 ++ [lit ""])) = (⟨some 6, none, splitNl p.t6 ++ [lit ""], [(lit "section_1", trimStr p.t1), (lit "section_2", trimStr p.t2), (lit "section_3", trimStr p.t3), (lit "section_4", ([] : Str)), (lit "section_4a", trimStr p.t4a), (lit "section_4b", trimStr p.t4b), (lit "section_4c", trimStr p.t4c), (lit "section_4d", trimStr p.t4d), (lit "section_4e", trimStr p.t4e), (lit "section_5", trimStr p.t5)]⟩ : PSState) := by
    rw [runSection _ hd6 6 _ parseMain_hd6 (by decide) (mainFree_withBlank _ hm6 hcr6)]
    refine PSState_ext _ _ rfl rfl rfl ?_
    rw [flushPS_of_sec _ 5 rfl]
    dsimp only
    rw [trim_joinLines_splitNl_blank, secKey_section_5]
    rfl
  have f7 : List.foldl stepPS (⟨some 6, none, splitNl p.t6 ++ [lit ""], [(lit "section_1", trimStr p.t1), (lit "section_2", trimStr p.t2), (lit "section_3", trimStr p.t3), (lit "section_4", ([] : Str)), (lit "section_4a", trimStr p.t4a), (lit "section_4b", trimStr p.t4b), (lit "section_4c", trimStr p.t4c), (lit "section_4d", trimStr p.t4d), (lit "section_4e", trimStr p.t4e), (lit "section_5", trimStr p.t5)]⟩ : PSState) (hd7 :: (splitNl p.t7 ++ [lit ""])) = (⟨some 7, none, splitNl p.t7 ++ [lit ""], [(lit "section_1", trimStr p.t1), (lit "section_2", trimStr p.t2), (lit "section_3", trimStr p.t3), (lit "section_4", ([] : Str)), (lit "section_4a", trimStr p.t4a), (lit "section_4b", trimStr p.t4b), (lit "section_4c", trimStr p.t4c), (lit "section_4d", trimStr p.t4d), (lit "section_4e", trimStr p.t4e), (lit "section_5", trimStr p.t5), (lit "section_6", trimStr p.t6)]⟩ : PSState) := by
    rw [runSection _ hd7 7 _ parseMain_hd7 (by decide) (mainFree_withBlank _ hm7 hcr7)]
    refine PSState_ext _ _ rfl rfl rfl ?_
    rw [flushPS_of_sec _ 6 rfl]
    dsimp only
    rw [trim_joinLines_splitNl_blank, secKey_section_6]
    rfl
  have f8 : List.foldl stepPS (⟨some 7, none, splitNl p.t7 ++ [lit ""], [(lit "section_1", trimStr p.t1), (lit "section_2", trimStr p.t2), (lit "section_3", trimStr p.t3), (lit "section_4", ([] : Str)), (lit "section_4a", trimStr p.t4a), (lit "section_4b", trimStr p.t4b), (lit "section_4c", trimStr p.t4c), (lit "section_4d", trimStr p.t4d), (lit "section_4e", trimStr p.t4e), (lit "section_5", trimStr p.t5), (lit "section_6", trimStr p.t6)]⟩ : PSState) (hd8 :: (splitNl p.t8 ++ [lit ""])) = (⟨some 8, none, splitNl p.t8 ++ [lit ""], [(lit "section_1", trimStr p.t1), (lit "section_2", trimStr p.t2), (lit "section_3", trimStr p.t3), (lit "section_4", ([] : Str)), (lit "section_4a", trimStr p.t4a), (lit "section_4b", trimStr p.t4b), (lit "section_4c", trimStr p.t4c), (lit "section_4d", trimStr p.t4d), (lit "section_4e", trimStr p.t4e), (lit "section_5", trimStr p.t5), (lit "section_6", trimStr p.t6), (lit "section_7", trimStr p.t7)]⟩ : PSState) := by
    rw [runSection _ hd8 8 _ parseMain_hd8 (by decide) (mainFree_withBlank _ hm8 hcr8)]
    refine PSState_ext _ _ rfl rfl rfl ?_
    rw [flushPS_of_sec _ 7 rfl]
    dsimp only
    rw [trim_joinLines_splitNl_blank, secKey_section_7]
    rfl
  have f9 : List.foldl stepPS (⟨some 8, none, splitNl p.t8 ++ [lit ""], [(lit "section_1", trimStr p.t1), (lit "section_2", trimStr p.t2), (lit "section_3", trimStr p.t3), (lit "section_4", ([] : Str)), (lit "section_4a", trimStr p.t4a), (lit "section_4b", trimStr p.t4b), (lit "section_4c", trimStr p.t4c), (lit "section_4d", trimStr p.t4d), (lit "section_4e", trimStr p.t4e), (lit "section_5", trimStr p.t5), (lit "section_6", trimStr p.t6), (lit "section_7", trimStr p.t7)]⟩ : PSState) (hd9 :: (splitNl p.t9 ++ [lit ""])) = (⟨some 9, none, splitNl p.t9 ++ [lit ""], [(lit "section_1", trimStr p.t1), (lit "section_2", trimStr p.t2), (lit "section_3", trimStr p.t3), (lit "section_4", ([] : Str)), (lit "section_4a", trimStr p.t4a), (lit "section_4b", trimStr p.t4b), (lit "section_4c", trimStr p.t4c), (lit "section_4d", trimStr p.t4d), (lit "section_4e", trimStr p.t4e), (lit "section_5", trimStr p.t5), (lit "section_6", trimStr p.t6), (lit "section_7", trimStr p.t7), (lit "section_8", trimStr p.t8)]⟩ : PSState) := by
    rw [runSection _ hd9 9 _ parseMain_hd9 (by decide) (mainFree_withBlank _ hm9 hcr9)]
    refine PSState_ext _ _ rfl rfl rfl ?_
    rw [flushPS_of_sec _ 8 rfl]
    dsimp only
    rw [trim_joinLines_splitNl_blank, secKey_section_8]
    rfl
  have f10 : List.foldl stepPS (⟨some 9, none, splitNl p.t9 ++ [lit ""], [(lit "section_1", trimStr p.t1), (lit "section_2", trimStr p.t2), (lit "section_3", trimStr p.t3), (lit "section_4", ([] : Str)), (lit "section_4a", trimStr p.t4a), (lit "section_4b", trimStr p.t4b), (lit "section_4c", trimStr p.t4c), (lit "section_4d", trimStr p.t4d), (lit "section_4e", trimStr p.t4e), (lit "section_5", trimStr p.t5), (lit "section_6", trimStr p.t6), (lit "section_7", trimStr p.t7), (lit "section_8", trimStr p.t8)]⟩ : PSState) (hd10 :: (splitNl p.t10 ++ [lit ""])) = (⟨some 10, none, splitNl p.t10 ++ [lit ""], [(lit "section_1", trimStr p.t1), (lit "section_2", trimStr p.t2), (lit "section_3", trimStr p.t3), (lit "section_4", ([] : Str)), (lit "section_4a", trimStr p.t4a), (lit "section_4b", trimStr p.t4b), (lit "section_4c", trimStr p.t4c), (lit "section_4d", trimStr p.t4d), (lit "section_4e", trimStr p.t4e), (lit "section_5", trimStr p.t5), (lit "section_6", trimStr p.t6), (lit "section_7", trimStr p.t7), (lit "section_8", trimStr p.t8), (lit "section_9", trimStr p.t9)]⟩ : PSState) := by
    rw [runSection _ hd10 10 _ parseMain_hd10 (by decide) (mainFree_withBlank _ hm10 hcr10)]
    refine PSState_ext _ _ rfl rfl rfl ?_
    rw [flushPS_of_sec _ 9 rfl]
    dsimp only
    rw [trim_joinLines_splitNl_blank, secKey_section_9]
    rfl
  have f11 : List.foldl stepPS (⟨some 10, none, splitNl p.t10 ++ [lit ""], [(lit "section_1", trimStr p.t1), (lit "section_2", trimStr p.t2), (lit "section_3", trimStr p.t3), (lit "section_4", ([] : Str)), (lit "section_4a", trimStr p.t4a), (lit "section_4b", trimStr p.t4b), (lit "section_4c", trimStr p.t4c), (lit "section_4d", trimStr p.t4d), (lit "section_4e", trimStr p.t4e), (lit "section_5", trimStr p.t5), (lit "section_6", trimStr p.t6), (lit "section_7", trimStr p.t7), (lit "section_8", trimStr p.t8), (lit "section_9", trimStr p.t9)]⟩ : PSState) (hd11 :: splitNl p.t11) = (⟨some 11, none, splitNl p.t11, [(lit "section_1", trimStr p.t1), (lit "section_2", trimStr p.t2), (lit "section_3", trimStr p.t3), (lit "section_4", ([] : Str)), (lit "section_4a", trimStr p.t4a), (lit "section_4b", trimStr p.t4b), (lit "section_4c", trimStr p.t4c), (lit "section_4d", trimStr p.t4d), (lit "section_4e", trimStr p.t4e), (lit "section_5", trimStr p.t5), (lit "section_6", trimStr p.t6), (lit "section_7", trimStr p.t7), (lit "section_8", trimStr p.t8), (lit "section_9", trimStr p.t9), (lit "section_10", trimStr p.t10)]⟩ : PSState) := by
    rw [runSection _ hd11 11 _ parseMain_hd11 (by decide) (mainFree_forall _ hm11 hcr11)]
    refine PSState_ext _ _ rfl rfl rfl ?_
    rw [flushPS_of_sec _ 10 rfl]
    dsimp only
    rw [trim_joinLines_splitNl_blank, secKey_section_10]
    rfl
  have hne : contentLinesOf p ≠ [] := by simp [contentLinesOf]
  have hnl : ∀ l ∈ contentLinesOf p, '\n' ∉ l := by
    intro l hl
    refine no_newline_of_mem_splitNl (stripCR (toMarkdown (toEntry p))) l ?_
    show l ∈ splitLines (toMarkdown (toEntry p))
    rw [hdoc]
    exact List.mem_append_right _ hl
  have hjdoc : joinLines (metaLinesOf p ++ contentLinesOf p) = toMarkdown (toEntry p) := by
    calc joinLines (metaLinesOf p ++ contentLinesOf p)
        = joinLines (splitLines (toMarkdown (toEntry p))) := by rw [hdoc]
      _ = stripCR (toMarkdown (toEntry p)) := joinLines_splitNl _
      _ = toMarkdown (toEntry p) := stripCR_of_noCR _ hcrdoc
  have hcrcontent : '\r' ∉ joinLines (contentLinesOf p) := by
    intro hm
    apply hcrdoc
    rw [← hjdoc, joinLines_append (metaLinesOf p) (contentLinesOf p)
      (by simp [metaLinesOf]) (by simp [contentLinesOf])]
    exact List.mem_append_right _ (List.mem_cons_of_mem _ hm)
  have hps : parseSections (joinLines (contentLinesOf p)) = secListOf p := by
    unfold parseSections
    rw [splitLines_eq_splitNl _ hcrcontent]
    rw [splitNl_joinLines_of_noNl _ hne hnl]
    rw [show contentLinesOf p = lit "" :: contentTailOf p from rfl]
    rw [e1]
    simp only [contentTailOf]
    simp only [List.foldl_append]
    rw [f1, f2, f3, f4, g1, g2, g3, g4, g5, f5, f6, f7, f8, f9, f10, f11]
    rw [flushPS_of_sec _ 11 rfl]
    dsimp only
    rw [joinLines_splitNl, secKey_section_11]
    rfl
  have hfm : fromMarkdown (toMarkdown (toEntry p)) =
      migrateEntry
        { schema := some (jsOrJ (lookupLast (fmListOf p) (lit "schema")) (JVal.num 1)),
          date := some (jsOrJ (lookupLast (fmListOf p) (lit "date")) (JVal.str [])),
          score := some ((lookupLast (fmListOf p) (lit "score")).getD (JVal.num 5)),
          discipline := some ((lookupLast (fmListOf p) (lit "discipline")).getD (JVal.num 5)),
          focus := some ((lookupLast (fmListOf p) (lit "focus")).getD (JVal.num 5)),
          energy := some ((lookupLast (fmListOf p) (lit "energy")).getD (JVal.num 5)),
          mood := some ((lookupLast (fmListOf p) (lit "mood")).getD (JVal.num 5)),
          net_worth_delta := some ((lookupLast (fmListOf p) (lit "net_worth_delta")).getD (JVal.num 0)),
          section_1 := lookupLast (secListOf p) (lit "section_1"),
          section_2 := lookupLast (secListOf p) (lit "section_2"),
          section_3 := lookupLast (secListOf p) (lit "section_3"),
          section_4a := lookupLast (secListOf p) (lit "section_4a"),
          section_4b := lookupLast (secListOf p) (lit "section_4b"),
          section_4c := lookupLast (secListOf p) (lit "section_4c"),
          section_4d := lookupLast (secListOf p) (lit "section_4d"),
          section_4e := lookupLast (secListOf p) (lit "section_4e"),
          section_5 := lookupLast (secListOf p) (lit "section_5"),
          section_6 := lookupLast (secListOf p) (lit "section_6"),
          section_7 := lookupLast (secListOf p) (lit "section_7"),
          section_8 := lookupLast (secListOf p) (lit "section_8"),
          section_9 := lookupLast (secListOf p) (lit "section_9"),
          section_10 := lookupLast (secListOf p) (lit "section_10"),
          section_11 := lookupLast (secListOf p) (lit "section_11") } := by
    unfold fromMarkdown
    rw [hpf]
    dsimp only
    rw [hps]
  rw [hfm]
  refine ⟨?_, rfl, rfl, rfl, rfl, rfl, rfl, rfl, rfl, rfl, rfl, rfl, rfl, rfl,
    rfl, rfl, rfl, rfl, rfl, rfl, rfl, rfl⟩
  have hne2 : p.pdate ≠ [] := dateRe_ne_nil p.pdate hD
  have htr : truthyJ (JVal.str p.pdate) = true := by
    unfold truthyJ
    simp [hne2]
  show some (jsOrJ (some (JVal.str p.pdate)) (JVal.str [])) = some (JVal.str p.pdate)
  unfold jsOrJ
  dsimp only
  rw [htr]
  rw [if_pos rfl]

/-- C1 witness: the round trip holds at the concrete sample record. -/
theorem c1_markdown_round_trip_witness :
    validPlain samplePlain = true ∧ noHeadingInjection samplePlain = true ∧
      crFree samplePlain = true ∧
      matchesModTrim (fromMarkdown (toMarkdown (toEntry samplePlain))) samplePlain :=
  ⟨by decide, by decide, by decide,
    c1_markdown_round_trip samplePlain (by decide) (by decide) (by decide)⟩

/-- C1 counterexample: a valid record whose section-1 text contains a
line shaped like a section-2 heading; serializing and reparsing does not
return the record (section 1 loses the text), so the round trip as
stated, over all valid records, fails. -/
theorem c1_roundtrip_counterexample :
    validPlain cexPlain = true ∧
      ¬ matchesModTrim (fromMarkdown (toMarkdown (toEntry cexPlain))) cexPlain := by
  constructor
  · decide
  · decide

/-- A second divergence of the unrestricted round trip, justifying the
carriage-return proviso: a `"\r\n"` inside a section text of a valid
record is collapsed to `"\n"` by serializing and reparsing, because
`toMarkdown` joins lines with `'\n'` while the parsers split at
`/\r?\n/`. -/
theorem crlf_collapsed_by_round_trip :
    validPlain crPlain = true ∧ noHeadingInjection crPlain = true ∧
      crFree crPlain = false ∧
      (fromMarkdown (toMarkdown (toEntry crPlain))).section_1 = some (lit "a\nb") := by
  refine ⟨by decide, by decide, by decide, by decide⟩
